import Mathlib

/-!
Verification of the dynamic-schema management and approval workflow of
mcp-server-qdrant (modules `ragbridge/schema_manager.py` and
`ragbridge/schema_approval.py`), via a shallow embedding.

Modelling conventions:
* Python dictionaries are association lists preserving insertion order;
  assignment updates an existing key in place and appends a fresh key.
* Python runtime values that flow through `change_details` and field
  validation are the inductive type `PyValue`; `bool` is a subclass of
  `int` for `isinstance`, numeric equality is cross-type, and truthiness
  follows Python.  Numeric values are carried as rationals.
* Version strings matching the pydantic regex `x.y.z` are modelled as
  triples of naturals (the canonical form the code produces).
* `datetime.now()` is an abstract tick passed to each operation as `now`.
* Fallible constructions (pydantic validation, KeyError, ValueError inside
  the try blocks) are modelled with `Option`; a caught exception makes the
  surrounding method return `false` with the state it had mutated so far.
-/

/-- Python runtime values relevant to the schema code. -/
inductive PyValue where
  | str (s : String)
  | int (n : Int)
  | bool (b : Bool)
  | float (q : ℚ)
  | datetime (t : Nat)
  | list (xs : List PyValue)
  | dict (kvs : List (String × PyValue))
  | null

abbrev PyDict := List (String × PyValue)

/-- Numeric value of a Python number (`bool` counts as 0 or 1). -/
def asNum : PyValue → Option ℚ
  | .int n => some (n : ℚ)
  | .bool b => some (if b then 1 else 0)
  | .float q => some q
  | _ => Option.none

def asNumD (v : PyValue) : ℚ := (asNum v).getD 0

mutual
/-- Python `==` on the modelled values (numeric cross-type equality;
containers compare elementwise in order). -/
def pyEqV : PyValue → PyValue → Bool
  | .str a, .str b => a == b
  | .datetime a, .datetime b => a == b
  | .null, .null => true
  | .list xs, .list ys => pyEqL xs ys
  | .dict xs, .dict ys => pyEqD xs ys
  | a, b =>
    match asNum a, asNum b with
    | some x, some y => decide (x = y)
    | _, _ => false

def pyEqL : List PyValue → List PyValue → Bool
  | [], [] => true
  | x :: xs, y :: ys => pyEqV x y && pyEqL xs ys
  | _, _ => false

def pyEqD : List (String × PyValue) → List (String × PyValue) → Bool
  | [], [] => true
  | (k, v) :: xs, (l, w) :: ys => k == l && pyEqV v w && pyEqD xs ys
  | _, _ => false
end

/-- Python truthiness. -/
def pyTruthy : PyValue → Bool
  | .str s => !s.isEmpty
  | .int n => decide (n ≠ 0)
  | .bool b => b
  | .float q => decide (q ≠ 0)
  | .datetime _ => true
  | .list xs => !xs.isEmpty
  | .dict kvs => !kvs.isEmpty
  | .null => false

/-- Python `type(value).__name__`. -/
def pyTypeName : PyValue → String
  | .str _ => "str"
  | .int _ => "int"
  | .bool _ => "bool"
  | .float _ => "float"
  | .datetime _ => "datetime"
  | .list _ => "list"
  | .dict _ => "dict"
  | .null => "NoneType"

def sQuote : String := String.singleton (Char.ofNat 39)

mutual
/-- Python `repr`-style rendering used by the f-string error messages. -/
def pyRepr : PyValue → String
  | .str s => sQuote ++ s ++ sQuote
  | .int n => toString n
  | .bool b => if b then "True" else "False"
  | .float q => toString q
  | .datetime t => toString t
  | .list xs => "[" ++ pyReprL xs ++ "]"
  | .dict kvs => "\x7b" ++ pyReprD kvs ++ "\x7d"
  | .null => "None"

def pyReprL : List PyValue → String
  | [] => ""
  | [x] => pyRepr x
  | x :: xs => pyRepr x ++ ", " ++ pyReprL xs

def pyReprD : List (String × PyValue) → String
  | [] => ""
  | [(k, v)] => sQuote ++ k ++ sQuote ++ ": " ++ pyRepr v
  | (k, v) :: xs => sQuote ++ k ++ sQuote ++ ": " ++ pyRepr v ++ ", " ++ pyReprD xs
end

def pyMem (v : PyValue) (l : List PyValue) : Bool := l.any (fun w => pyEqV w v)

/-! Association-list model of Python `dict`. -/

def dictGet [DecidableEq κ] : List (κ × α) → κ → Option α
  | [], _ => Option.none
  | (k, v) :: rest, k2 => if k = k2 then some v else dictGet rest k2

def dictGetD [DecidableEq κ] (d : List (κ × α)) (k : κ) (dflt : α) : α :=
  (dictGet d k).getD dflt

def dictMem [DecidableEq κ] (d : List (κ × α)) (k : κ) : Bool :=
  (dictGet d k).isSome

/-- `d[k] = v`: update in place when present, append when absent. -/
def dictInsert [DecidableEq κ] : List (κ × α) → κ → α → List (κ × α)
  | [], k, v => [(k, v)]
  | (k2, v2) :: rest, k, v =>
    if k2 = k then (k, v) :: rest else (k2, v2) :: dictInsert rest k v

/-- `del d[k]`: removes the (first) binding of `k`. -/
def dictErase [DecidableEq κ] : List (κ × α) → κ → List (κ × α)
  | [], _ => []
  | (k2, v2) :: rest, k =>
    if k2 = k then rest else (k2, v2) :: dictErase rest k

def dictKeys (d : List (κ × α)) : List κ := d.map Prod.fst

/-! Schema-manager data model (`schema_manager.py`). -/

/-- A semantic version `major.minor.patch`; the pydantic validator on
`SchemaVersion.version` restricts version strings to this shape. -/
structure Version where
  major : Nat
  minor : Nat
  patch : Nat
deriving DecidableEq

/-- Python tuple comparison of `_parse_version` results. -/
def versionLt (a b : Version) : Bool :=
  a.major < b.major ||
    (a.major = b.major &&
      (a.minor < b.minor || (a.minor = b.minor && a.patch < b.patch)))

inductive FieldType where
  | string | integer | float | boolean | datetime | list | dict | json
deriving DecidableEq

/-- `FieldType(...).value`. -/
def fieldTypeValue : FieldType → String
  | .string => "string"
  | .integer => "integer"
  | .float => "float"
  | .boolean => "boolean"
  | .datetime => "datetime"
  | .list => "list"
  | .dict => "dict"
  | .json => "json"

/-- `FieldType(x)`: succeeds exactly on the eight member value strings. -/
def parseFieldType : PyValue → Option FieldType
  | .str "string" => some .string
  | .str "integer" => some .integer
  | .str "float" => some .float
  | .str "boolean" => some .boolean
  | .str "datetime" => some .datetime
  | .str "list" => some .list
  | .str "dict" => some .dict
  | .str "json" => some .json
  | _ => Option.none

structure FieldValidation where
  required : Bool := false
  min_length : Option Int := Option.none
  max_length : Option Int := Option.none
  pattern : Option String := Option.none
  min_value : Option ℚ := Option.none
  max_value : Option ℚ := Option.none
  allowed_values : Option (List PyValue) := Option.none
  default_value : Option PyValue := Option.none

structure SchemaField where
  name : String
  field_type : FieldType
  description : String := ""
  validation : FieldValidation := {}
  is_core : Bool := false
  deprecated : Bool := false
  added_in_version : Version
  deprecated_in_version : Option Version := Option.none
  migration_mapping : Option String := Option.none

structure SchemaVersion where
  version : Version
  description : String := ""
  created_at : Nat := 0
  is_active : Bool := true
  backward_compatible : Bool := true
  fields : List (String × SchemaField) := []
  migration_notes : String := ""

structure SchemaMigration where
  from_version : Version
  to_version : Version
  migration_type : String
  field_name : String
  migration_script : String := ""
  rollback_script : String := ""
  created_at : Nat := 0

/-- In-memory state of a `DynamicSchemaManager` (the JSON persistence
mirrors this state and is not modelled separately). -/
structure SchemaState where
  schemas : List (Version × SchemaVersion)
  migrations : List SchemaMigration

/-- The five core fields fixed in `DynamicSchemaManager.__init__`. -/
def core_fields : List (String × SchemaField) :=
  [ ("content_id",
      { name := "content_id", field_type := FieldType.string,
        description := "內容唯一識別符",
        validation := { required := true }, is_core := true,
        added_in_version := ⟨1, 0, 0⟩ }),
    ("title",
      { name := "title", field_type := FieldType.string,
        description := "內容標題",
        validation := { required := true, max_length := some 200 },
        is_core := true, added_in_version := ⟨1, 0, 0⟩ }),
    ("content_type",
      { name := "content_type", field_type := FieldType.string,
        description := "內容類型",
        validation := { required := true }, is_core := true,
        added_in_version := ⟨1, 0, 0⟩ }),
    ("created_at",
      { name := "created_at", field_type := FieldType.datetime,
        description := "建立時間",
        validation := { required := true }, is_core := true,
        added_in_version := ⟨1, 0, 0⟩ }),
    ("updated_at",
      { name := "updated_at", field_type := FieldType.datetime,
        description := "更新時間",
        validation := { required := true }, is_core := true,
        added_in_version := ⟨1, 0, 0⟩ }) ]

/-- `_initialize_base_schema`: the 1.0.0 schema holding the core fields. -/
def base_schema : SchemaVersion :=
  { version := ⟨1, 0, 0⟩,
    description := "基礎 Schema 版本，包含核心欄位",
    fields := core_fields }

/-- A fresh manager state (empty storage directory). -/
def initSchemaState : SchemaState :=
  { schemas := [(⟨1, 0, 0⟩, base_schema)], migrations := [] }

/-- Maximum of the active versions by `_parse_version` order (Python
`sorted(..., reverse=True)[0]`; keys are distinct so ties cannot occur). -/
def pickLatest : (Version × SchemaVersion) → List (Version × SchemaVersion) → SchemaVersion
  | p, [] => p.2
  | p, q :: rest => if versionLt p.1 q.1 then pickLatest q rest else pickLatest p rest

/-- `get_current_schema`. -/
def get_current_schema (st : SchemaState) : SchemaVersion :=
  match st.schemas.filter (fun p => p.2.is_active) with
  | [] => (dictGet st.schemas ⟨1, 0, 0⟩).getD base_schema
  | p :: rest => pickLatest p rest

/-- `_increment_version`; an unknown increment type raises `ValueError`. -/
def increment_version (v : Version) (t : String) : Option Version :=
  if t = "major" then some ⟨v.major + 1, 0, 0⟩
  else if t = "minor" then some ⟨v.major, v.minor + 1, 0⟩
  else if t = "patch" then some ⟨v.major, v.minor, v.patch + 1⟩
  else Option.none

/-- The version an operation writes to: the explicit `target_version`
when given, otherwise the bumped current version. -/
def targetVersion (st : SchemaState) (tv : Option Version) (bump : String) : Option Version :=
  match tv with
  | some v => some v
  | Option.none => increment_version (get_current_schema st).version bump

/-- Registers `target` as a new schema version copying the current fields
when it is not yet known (the shared pattern in the three mutators). -/
def ensureVersion (st : SchemaState) (target : Version) (descr : String) (now : Nat) : SchemaState :=
  if dictMem st.schemas target then st
  else
    { st with
      schemas := dictInsert st.schemas target
        { version := target, description := descr, created_at := now,
          fields := (get_current_schema st).fields } }

/-- `DynamicSchemaManager.add_field`. -/
def add_field (st : SchemaState) (field : SchemaField) (tv : Option Version) (now : Nat) :
    Bool × SchemaState :=
  match targetVersion st tv "minor" with
  | Option.none => (false, st)
  | some target =>
    let st1 := ensureVersion st target ("新增欄位 " ++ field.name) now
    match dictGet st1.schemas target with
    | Option.none => (false, st1)
    | some sv =>
      if dictMem sv.fields field.name then (false, st1)
      else
        let field2 := { field with added_in_version := target }
        let sv2 := { sv with fields := dictInsert sv.fields field.name field2 }
        let st2 := { st1 with schemas := dictInsert st1.schemas target sv2 }
        let st3 :=
          if target ≠ ⟨1, 0, 0⟩ then
            { st2 with migrations := st2.migrations ++
              [{ from_version := (get_current_schema st2).version,
                 to_version := target, migration_type := "add_field",
                 field_name := field.name,
                 migration_script :=
                   "ADD FIELD " ++ field.name ++ " " ++ fieldTypeValue field.field_type,
                 created_at := now }] }
          else st2
        (true, st3)

/-- `DynamicSchemaManager.remove_field` (soft delete). -/
def remove_field (st : SchemaState) (field_name : String) (tv : Option Version) (now : Nat) :
    Bool × SchemaState :=
  if dictMem core_fields field_name then (false, st)
  else
    match targetVersion st tv "minor" with
    | Option.none => (false, st)
    | some target =>
      let st1 := ensureVersion st target ("棄用欄位 " ++ field_name) now
      match dictGet st1.schemas target with
      | Option.none => (false, st1)
      | some sv =>
        match dictGet sv.fields field_name with
        | Option.none => (false, st1)
        | some f =>
          let f2 := { f with deprecated := true, deprecated_in_version := some target }
          let sv2 := { sv with fields := dictInsert sv.fields field_name f2 }
          let st2 := { st1 with schemas := dictInsert st1.schemas target sv2 }
          let st3 := { st2 with migrations := st2.migrations ++
            [{ from_version := (get_current_schema st2).version,
               to_version := target, migration_type := "remove_field",
               field_name := field_name,
               migration_script := "DEPRECATE FIELD " ++ field_name,
               created_at := now }] }
          (true, st3)

/-- `DynamicSchemaManager.modify_field`. -/
def modify_field (st : SchemaState) (field_name : String) (new_field : SchemaField)
    (tv : Option Version) (now : Nat) : Bool × SchemaState :=
  match targetVersion st tv "patch" with
  | Option.none => (false, st)
  | some target =>
    let st1 := ensureVersion st target ("修改欄位 " ++ field_name) now
    match dictGet st1.schemas target with
    | Option.none => (false, st1)
    | some sv =>
      match dictGet sv.fields field_name with
      | Option.none => (false, st1)
      | some original =>
        let nf := { new_field with
          added_in_version := original.added_in_version, name := field_name }
        let sv2 := { sv with fields := dictInsert sv.fields field_name nf }
        let st2 := { st1 with schemas := dictInsert st1.schemas target sv2 }
        let st3 := { st2 with migrations := st2.migrations ++
          [{ from_version := (get_current_schema st2).version,
             to_version := target, migration_type := "modify_field",
             field_name := field_name,
             migration_script := "MODIFY FIELD " ++ field_name,
             created_at := now }] }
        (true, st3)

/-! Approval-gate data model (`schema_approval.py`). -/

inductive ApprovalLevel where
  | automatic | reviewer | admin | committee
deriving DecidableEq

inductive ChangeRiskLevel where
  | low | medium | high | critical
deriving DecidableEq

def riskValue : ChangeRiskLevel → String
  | .low => "low"
  | .medium => "medium"
  | .high => "high"
  | .critical => "critical"

def levelValue : ApprovalLevel → String
  | .automatic => "automatic"
  | .reviewer => "reviewer"
  | .admin => "admin"
  | .committee => "committee"

/-- `_analyze_change_impact` result (a dict with five fixed keys). -/
structure ImpactAnalysis where
  breaking_change : Bool
  data_migration_required : Bool
  estimated_downtime : String
  affected_queries : List String
  rollback_complexity : String

structure SchemaChangeRequest where
  request_id : String
  change_type : String
  field_name : String
  change_details : PyDict
  risk_level : ChangeRiskLevel
  required_approval_level : ApprovalLevel
  proposed_by : String
  proposed_at : Nat
  justification : String
  status : String
  reviewed_by : Option String
  reviewed_at : Option Nat
  review_comments : String
  impact_analysis : ImpactAnalysis
  affected_systems : List String

/-- In-memory state of a `SchemaApprovalManager` together with its
underlying `DynamicSchemaManager`. -/
structure ApprovalState where
  schema_st : SchemaState
  pending : List (String × SchemaChangeRequest)
  history : List SchemaChangeRequest

def initApprovalState : ApprovalState :=
  { schema_st := initSchemaState, pending := [], history := [] }

/-- The fixed reviewer set from `__init__`. -/
def reviewers : List String := ["admin", "schema_reviewer", "lead_developer"]

/-- The fixed admin set from `__init__`. -/
def admins : List String := ["admin", "system_admin"]

/-- `SchemaApprovalManager.assess_change_risk`. -/
def assess_change_risk (change_type field_name : String) (change_details : PyDict) :
    ChangeRiskLevel :=
  if dictMem core_fields field_name then .critical
  else if change_type = "add_field" then
    if pyTruthy (dictGetD change_details "required" (.bool false)) then .medium else .low
  else if change_type = "remove_field" then .high
  else if change_type = "modify_field" then
    if dictMem change_details "field_type" || dictMem change_details "required" then .medium
    else .low
  else if change_type = "rename_field" then .high
  else .medium

/-- `SchemaApprovalManager.determine_approval_level`. -/
def determine_approval_level : ChangeRiskLevel → ApprovalLevel
  | .low => .automatic
  | .medium => .reviewer
  | .high => .admin
  | .critical => .committee

/-- `SchemaApprovalManager._check_review_permission`. -/
def check_review_permission (reviewer : String) (required_level : ApprovalLevel) : Bool :=
  match required_level with
  | .automatic => true
  | .reviewer => reviewers.contains reviewer
  | .admin => admins.contains reviewer
  | .committee => admins.contains reviewer

/-- `SchemaApprovalManager._analyze_change_impact`. -/
def analyze_change_impact (change_type : String) (change_details : PyDict) :
    ImpactAnalysis :=
  let impact : ImpactAnalysis :=
    { breaking_change := false, data_migration_required := false,
      estimated_downtime := "0 minutes", affected_queries := [],
      rollback_complexity := "simple" }
  if change_type = "remove_field" then
    { impact with
      breaking_change := true, data_migration_required := true,
      rollback_complexity := "complex" }
  else if change_type = "modify_field" then
    if pyTruthy (dictGetD change_details "field_type" .null) then
      { impact with data_migration_required := true, rollback_complexity := "moderate" }
    else impact
  else if change_type = "add_field" then
    if pyTruthy (dictGetD change_details "required" .null) then
      { impact with
        data_migration_required := true,
        estimated_downtime := "5-10 minutes" }
    else impact
  else impact

/-- The request built by `create_change_request` (its `request_id` is a
fresh `uuid4`, passed in here as `rid`). -/
def mkChangeRequest (rid change_type field_name : String) (change_details : PyDict)
    (proposed_by justification : String) (now : Nat) : SchemaChangeRequest :=
  { request_id := rid, change_type := change_type, field_name := field_name,
    change_details := change_details,
    risk_level := assess_change_risk change_type field_name change_details,
    required_approval_level :=
      determine_approval_level (assess_change_risk change_type field_name change_details),
    proposed_by := proposed_by, proposed_at := now, justification := justification,
    status := "pending", reviewed_by := Option.none, reviewed_at := Option.none,
    review_comments := "",
    impact_analysis := analyze_change_impact change_type change_details,
    affected_systems := [] }

/-- `re.match` of the pydantic name validator pattern
`[a-zA-Z_][a-zA-Z0-9_]*` anchored on both sides. -/
def isValidIdent (s : String) : Bool :=
  match s.toList with
  | [] => false
  | c :: rest =>
    (c.isAlpha || c = '_') && rest.all (fun d => d.isAlpha || d.isDigit || d = '_')

/-- Pydantic parse of a plain value into `Optional[int]`; anything of the
wrong runtime type raises a validation error (`Option.none` here). -/
def parseOptInt : Option PyValue → Option (Option Int)
  | Option.none => some Option.none
  | some .null => some Option.none
  | some (.int n) => some (some n)
  | some _ => Option.none

/-- Pydantic parse into `Optional[Union[int, float]]`. -/
def parseOptNum : Option PyValue → Option (Option ℚ)
  | Option.none => some Option.none
  | some .null => some Option.none
  | some (.int n) => some (some (n : ℚ))
  | some (.float q) => some (some q)
  | some _ => Option.none

/-- Pydantic parse into `Optional[str]`. -/
def parseOptStr : Option PyValue → Option (Option String)
  | Option.none => some Option.none
  | some .null => some Option.none
  | some (.str s) => some (some s)
  | some _ => Option.none

/-- Pydantic parse into the plain (non-optional) `str` field
`description`; `None` or any non-string value raises a validation
error. -/
def parseStr : PyValue → Option String
  | .str s => some s
  | _ => Option.none

/-- `FieldValidation(**validation_data)`: unknown keys are ignored, each
known key must parse; a failure raises, caught by the caller. -/
def parseFieldValidation (kvs : PyDict) : Option FieldValidation := do
  let required ←
    match dictGet kvs "required" with
    | Option.none => some false
    | some (.bool b) => some b
    | some _ => Option.none
  let min_length ← parseOptInt (dictGet kvs "min_length")
  let max_length ← parseOptInt (dictGet kvs "max_length")
  let pattern ← parseOptStr (dictGet kvs "pattern")
  let min_value ← parseOptNum (dictGet kvs "min_value")
  let max_value ← parseOptNum (dictGet kvs "max_value")
  let allowed_values ←
    match dictGet kvs "allowed_values" with
    | Option.none => some Option.none
    | some .null => some Option.none
    | some (.list xs) => some (some xs)
    | some _ => Option.none
  let default_value :=
    match dictGet kvs "default_value" with
    | Option.none => Option.none
    | some v => some v
  pure { required := required, min_length := min_length, max_length := max_length,
         pattern := pattern, min_value := min_value, max_value := max_value,
         allowed_values := allowed_values, default_value := default_value }

/-- `SchemaApprovalManager._execute_change`.  An exception anywhere in the
`try` block is caught and turns into `false`; mutations the schema manager
performed before a failure survive in the returned state. -/
def execute_change (sst : SchemaState) (req : SchemaChangeRequest) (now : Nat) :
    Bool × SchemaState :=
  let details := req.change_details
  if req.change_type = "add_field" then
    let validationParsed : Option FieldValidation :=
      match dictGetD details "validation" (.dict []) with
      | .dict kvs => parseFieldValidation kvs
      | _ => some {}
    match validationParsed with
    | Option.none => (false, sst)
    | some val0 =>
      let val := { val0 with
        required := pyTruthy (dictGetD details "required" (.bool false)) }
      match dictGet details "field_type" with
      | Option.none => (false, sst)
      | some ftRaw =>
        match parseFieldType ftRaw with
        | Option.none => (false, sst)
        | some ft =>
          match parseStr (dictGetD details "description" (.str "")) with
          | Option.none => (false, sst)
          | some desc =>
            if isValidIdent req.field_name then
              add_field sst
                { name := req.field_name, field_type := ft,
                  description := desc, validation := val,
                  added_in_version := ⟨0, 0, 0⟩ } Option.none now
            else (false, sst)
  else if req.change_type = "remove_field" then
    remove_field sst req.field_name Option.none now
  else if req.change_type = "modify_field" then
    let current := get_current_schema sst
    match dictGet current.fields req.field_name with
    | Option.none => (false, sst)
    | some existing =>
      let validationParsed : Option FieldValidation :=
        match dictGetD details "validation" (.dict []) with
        | .dict kvs => parseFieldValidation kvs
        | _ => some existing.validation
      match validationParsed with
      | Option.none => (false, sst)
      | some val =>
        let ftParsed : Option FieldType :=
          match dictGet details "field_type" with
          | Option.none => some existing.field_type
          | some v => parseFieldType v
        match ftParsed with
        | Option.none => (false, sst)
        | some ft =>
          let descParsed : Option String :=
            match dictGet details "description" with
            | Option.none => some existing.description
            | some v => parseStr v
          match descParsed with
          | Option.none => (false, sst)
          | some desc =>
            if isValidIdent req.field_name then
              modify_field sst req.field_name
                { name := req.field_name, field_type := ft, description := desc,
                  validation := val, is_core := existing.is_core,
                  added_in_version := existing.added_in_version } Option.none now
            else (false, sst)
  else (false, sst)

/-- The request as `_auto_approve_request` stamps it before executing. -/
def autoApproved (req : SchemaChangeRequest) (now : Nat) : SchemaChangeRequest :=
  { req with
    status := "approved", reviewed_by := some "system",
    reviewed_at := some now, review_comments := "自動核准（低風險變更）" }

/-- `SchemaApprovalManager._auto_approve_request`.  On success the request
joins the history; on failure it is re-stamped rejected but stored nowhere
(the local object is discarded), only the request id is returned. -/
def auto_approve_request (st : ApprovalState) (req : SchemaChangeRequest) (now : Nat) :
    String × ApprovalState :=
  let reqA := autoApproved req now
  let res := execute_change st.schema_st reqA now
  if res.1 then
    (reqA.request_id,
      { st with schema_st := res.2, history := st.history ++ [reqA] })
  else
    (reqA.request_id, { st with schema_st := res.2 })

/-- `SchemaApprovalManager.create_change_request`; `rid` stands for the
freshly generated `uuid4`. -/
def create_change_request (st : ApprovalState) (rid change_type field_name : String)
    (change_details : PyDict) (proposed_by justification : String) (now : Nat) :
    String × ApprovalState :=
  let req := mkChangeRequest rid change_type field_name change_details
    proposed_by justification now
  if req.required_approval_level = ApprovalLevel.automatic then
    auto_approve_request st req now
  else
    (rid, { st with pending := dictInsert st.pending rid req })

/-- The action-dependent middle of `review_request`: on "approve" the
request is stamped approved and the change executed, a failing execution
re-stamps it rejected and folds the failure note into the comments; on
"reject" it is stamped rejected; any other action leaves the status as it
was.  Returns the finalized request and the (possibly mutated) schema
state. -/
def review_apply_action (sst : SchemaState) (req1 : SchemaChangeRequest)
    (action : String) (now : Nat) : SchemaChangeRequest × SchemaState :=
  if action = "approve" then
    let req2 := { req1 with status := "approved" }
    let res := execute_change sst req2 now
    if res.1 then (req2, res.2)
    else ({ req2 with
            status := "rejected",
            review_comments := req2.review_comments ++ " (執行失敗)" }, res.2)
  else if action = "reject" then ({ req1 with status := "rejected" }, sst)
  else (req1, sst)

/-- `SchemaApprovalManager.review_request`. -/
def review_request (st : ApprovalState) (rid reviewer action comments : String)
    (now : Nat) : Bool × ApprovalState :=
  match dictGet st.pending rid with
  | Option.none => (false, st)
  | some req0 =>
    if check_review_permission reviewer req0.required_approval_level then
      let req1 := { req0 with
        reviewed_by := some reviewer,
        reviewed_at := some now, review_comments := comments }
      let step := review_apply_action st.schema_st req1 action now
      (true,
        { schema_st := step.2,
          pending := dictErase st.pending rid,
          history := st.history ++ [step.1] })
    else (false, st)

/-- One entry of the `get_pending_requests` result. -/
structure PendingSummary where
  request_id : String
  change_type : String
  field_name : String
  risk_level : String
  required_approval_level : String
  proposed_by : String
  proposed_at : Nat
  justification : String
  impact_analysis : ImpactAnalysis

/-- `SchemaApprovalManager.get_pending_requests` (an empty reviewer string
is falsy in Python and disables the permission filter). -/
def get_pending_requests (st : ApprovalState) (reviewer : Option String) :
    List PendingSummary :=
  (st.pending.map Prod.snd).filterMap (fun r =>
    let keep :=
      match reviewer with
      | Option.none => true
      | some rv =>
        if rv = "" then true
        else check_review_permission rv r.required_approval_level
    if keep then
      some { request_id := r.request_id, change_type := r.change_type,
             field_name := r.field_name, risk_level := riskValue r.risk_level,
             required_approval_level := levelValue r.required_approval_level,
             proposed_by := r.proposed_by, proposed_at := r.proposed_at,
             justification := r.justification, impact_analysis := r.impact_analysis }
    else Option.none)

/-- One entry of the `get_approval_history` result. -/
structure HistorySummary where
  request_id : String
  change_type : String
  field_name : String
  status : String
  risk_level : String
  proposed_by : String
  proposed_at : Nat
  reviewed_by : Option String
  reviewed_at : Option Nat
  review_comments : String

/-- Python `l[i:]`. -/
def pySliceFrom (l : List α) (i : Int) : List α :=
  if 0 ≤ i then l.drop i.toNat
  else l.drop (l.length - min (-i).toNat l.length)

/-- `SchemaApprovalManager.get_approval_history` (`history[-limit:]`). -/
def get_approval_history (st : ApprovalState) (limit : Int) : List HistorySummary :=
  (pySliceFrom st.history (-limit)).map (fun r =>
    { request_id := r.request_id, change_type := r.change_type,
      field_name := r.field_name, status := r.status,
      risk_level := riskValue r.risk_level, proposed_by := r.proposed_by,
      proposed_at := r.proposed_at, reviewed_by := r.reviewed_by,
      reviewed_at := r.reviewed_at, review_comments := r.review_comments })

/-! Field-value validation (`_validate_field_value`, `_get_python_type`). -/

/-- The Python classes `_get_python_type` can name. -/
inductive PyClass where
  | str | int | float | bool | datetime | list | dict
deriving DecidableEq

/-- `isinstance(v, c)`; a Python `bool` is an instance of `int`. -/
def isInst : PyValue → PyClass → Bool
  | .str _, .str => true
  | .int _, .int => true
  | .bool _, .int => true
  | .bool _, .bool => true
  | .float _, .float => true
  | .datetime _, .datetime => true
  | .list _, .list => true
  | .dict _, .dict => true
  | _, _ => false

/-- `_get_python_type`: the expected class (tuple of classes for JSON). -/
def get_python_type : FieldType → List PyClass
  | .string => [.str]
  | .integer => [.int]
  | .float => [.float]
  | .boolean => [.bool]
  | .datetime => [.datetime]
  | .list => [.list]
  | .dict => [.dict]
  | .json => [.dict, .list, .str]

def pyIsInstance (v : PyValue) (cs : List PyClass) : Bool := cs.any (isInst v)

def isStrV : PyValue → Bool
  | .str _ => true
  | _ => false

/-- `isinstance(value, (int, float))`. -/
def isNumInstance (v : PyValue) : Bool :=
  isInst v PyClass.int || isInst v PyClass.float

def strValD : PyValue → String
  | .str s => s
  | _ => ""

/-- `len(value)` of a string value, as a Python int. -/
def strLenI (v : PyValue) : Int := ((strValD v).length : Int)

/-- Truthiness of an `Optional[int]` (`None` and `0` are falsy). -/
def optIntTruthy : Option Int → Bool
  | some n => decide (n ≠ 0)
  | Option.none => false

/-- Truthiness of an `Optional[str]` (`None` and `""` are falsy). -/
def optStrTruthy : Option String → Bool
  | some s => !s.isEmpty
  | Option.none => false

/-- Truthiness of an `Optional[list]` (`None` and `[]` are falsy). -/
def optListTruthy : Option (List PyValue) → Bool
  | some l => !l.isEmpty
  | Option.none => false

/-- The condition under which `_validate_field_value` raises: the string
block is entered, `validation.pattern` is truthy, and compiling the
pattern fails, so the `re.match` call of the pattern check raises
`re.error` — no handler exists on that path (`validation.pattern` is an
unvalidated `Optional[str]`). -/
def pattern_raises (reValid : String → Bool)
    (field : SchemaField) (value : PyValue) : Bool :=
  decide (field.field_type = FieldType.string) && isStrV value &&
    optStrTruthy field.validation.pattern &&
    !(reValid (field.validation.pattern.getD ""))

/-- `_validate_field_value`, line by line: the type check short-circuits
with a single message; then the string checks, the numeric checks and the
allowed-values check each append their messages to `errors` in order.
`reValid pat` stands for "`re.compile(pat)` succeeds" and `reMatch pat s`
for `re.match(pat, s) is not None` on a pattern that compiles.
`Option.none` models the uncaught `re.error` that propagates out of the
function when the pattern check is reached with an invalid pattern; the
raise discards the messages accumulated before that line, so the raise
condition is tested up front here and the accumulation below runs exactly
when the function actually returns. -/
def validate_field_value (reValid : String → Bool) (reMatch : String → String → Bool)
    (field : SchemaField) (value : PyValue) : Option (List String) :=
  let validation := field.validation
  if pyIsInstance value (get_python_type field.field_type) = false then
    some ["欄位 " ++ field.name ++ " 類型錯誤，期望 " ++ fieldTypeValue field.field_type ++
      "，實際 " ++ pyTypeName value]
  else if pattern_raises reValid field value = true then
    Option.none
  else
    let errors : List String := []
    let errors :=
      if field.field_type = FieldType.string ∧ isStrV value = true then
        let errors :=
          if optIntTruthy validation.min_length = true ∧
              strLenI value < validation.min_length.getD 0 then
            errors ++ ["欄位 " ++ field.name ++ " 長度不足，最小 " ++
              toString (validation.min_length.getD 0)]
          else errors
        let errors :=
          if optIntTruthy validation.max_length = true ∧
              validation.max_length.getD 0 < strLenI value then
            errors ++ ["欄位 " ++ field.name ++ " 長度超限，最大 " ++
              toString (validation.max_length.getD 0)]
          else errors
        let errors :=
          if optStrTruthy validation.pattern = true ∧
              reMatch (validation.pattern.getD "") (strValD value) = false then
            errors ++ ["欄位 " ++ field.name ++ " 格式不符合規則: " ++
              validation.pattern.getD ""]
          else errors
        errors
      else errors
    let errors :=
      if (field.field_type = FieldType.integer ∨ field.field_type = FieldType.float) ∧
          isNumInstance value = true then
        let errors :=
          if validation.min_value.isSome = true ∧
              asNumD value < validation.min_value.getD 0 then
            errors ++ ["欄位 " ++ field.name ++ " 值過小，最小 " ++
              toString (validation.min_value.getD 0)]
          else errors
        let errors :=
          if validation.max_value.isSome = true ∧
              validation.max_value.getD 0 < asNumD value then
            errors ++ ["欄位 " ++ field.name ++ " 值過大，最大 " ++
              toString (validation.max_value.getD 0)]
          else errors
        errors
      else errors
    let errors :=
      if optListTruthy validation.allowed_values = true ∧
          pyMem value (validation.allowed_values.getD []) = false then
        errors ++ ["欄位 " ++ field.name ++ " 值不在允許範圍內: " ++
          pyRepr (.list (validation.allowed_values.getD []))]
      else errors
    some errors

/-- The single message produced when the runtime type mismatches. -/
def type_mismatch_msgs (field : SchemaField) (value : PyValue) : List String :=
  ["欄位 " ++ field.name ++ " 類型錯誤，期望 " ++ fieldTypeValue field.field_type ++
    "，實際 " ++ pyTypeName value]

/-- The messages the string-validation block contributes on its own. -/
def string_checks (reMatch : String → String → Bool)
    (field : SchemaField) (value : PyValue) : List String :=
  let validation := field.validation
  if field.field_type = FieldType.string ∧ isStrV value = true then
    (if optIntTruthy validation.min_length = true ∧
        strLenI value < validation.min_length.getD 0 then
      ["欄位 " ++ field.name ++ " 長度不足，最小 " ++
        toString (validation.min_length.getD 0)]
    else []) ++
    (if optIntTruthy validation.max_length = true ∧
        validation.max_length.getD 0 < strLenI value then
      ["欄位 " ++ field.name ++ " 長度超限，最大 " ++
        toString (validation.max_length.getD 0)]
    else []) ++
    (if optStrTruthy validation.pattern = true ∧
        reMatch (validation.pattern.getD "") (strValD value) = false then
      ["欄位 " ++ field.name ++ " 格式不符合規則: " ++ validation.pattern.getD ""]
    else [])
  else []

/-- The messages the numeric-validation block contributes on its own. -/
def numeric_checks (field : SchemaField) (value : PyValue) : List String :=
  let validation := field.validation
  if (field.field_type = FieldType.integer ∨ field.field_type = FieldType.float) ∧
      isNumInstance value = true then
    (if validation.min_value.isSome = true ∧
        asNumD value < validation.min_value.getD 0 then
      ["欄位 " ++ field.name ++ " 值過小，最小 " ++ toString (validation.min_value.getD 0)]
    else []) ++
    (if validation.max_value.isSome = true ∧
        validation.max_value.getD 0 < asNumD value then
      ["欄位 " ++ field.name ++ " 值過大，最大 " ++ toString (validation.max_value.getD 0)]
    else [])
  else []

/-- The messages the allowed-values check contributes on its own. -/
def allowed_checks (field : SchemaField) (value : PyValue) : List String :=
  let validation := field.validation
  if optListTruthy validation.allowed_values = true ∧
      pyMem value (validation.allowed_values.getD []) = false then
    ["欄位 " ++ field.name ++ " 值不在允許範圍內: " ++
      pyRepr (.list (validation.allowed_values.getD []))]
  else []

/-- The string block acts on an accumulator by appending its own messages. -/
theorem string_block_accum (reMatch : String → String → Bool)
    (field : SchemaField) (value : PyValue) (e : List String) :
    (if field.field_type = FieldType.string ∧ isStrV value = true then
      (if optStrTruthy field.validation.pattern = true ∧
          reMatch (field.validation.pattern.getD "") (strValD value) = false then
        (if optIntTruthy field.validation.max_length = true ∧
            field.validation.max_length.getD 0 < strLenI value then
          (if optIntTruthy field.validation.min_length = true ∧
              strLenI value < field.validation.min_length.getD 0 then
            e ++ ["欄位 " ++ field.name ++ " 長度不足，最小 " ++
              toString (field.validation.min_length.getD 0)]
          else e) ++ ["欄位 " ++ field.name ++ " 長度超限，最大 " ++
            toString (field.validation.max_length.getD 0)]
        else
          (if optIntTruthy field.validation.min_length = true ∧
              strLenI value < field.validation.min_length.getD 0 then
            e ++ ["欄位 " ++ field.name ++ " 長度不足，最小 " ++
              toString (field.validation.min_length.getD 0)]
          else e)) ++ ["欄位 " ++ field.name ++ " 格式不符合規則: " ++
            field.validation.pattern.getD ""]
      else
        (if optIntTruthy field.validation.max_length = true ∧
            field.validation.max_length.getD 0 < strLenI value then
          (if optIntTruthy field.validation.min_length = true ∧
              strLenI value < field.validation.min_length.getD 0 then
            e ++ ["欄位 " ++ field.name ++ " 長度不足，最小 " ++
              toString (field.validation.min_length.getD 0)]
          else e) ++ ["欄位 " ++ field.name ++ " 長度超限，最大 " ++
            toString (field.validation.max_length.getD 0)]
        else
          (if optIntTruthy field.validation.min_length = true ∧
              strLenI value < field.validation.min_length.getD 0 then
            e ++ ["欄位 " ++ field.name ++ " 長度不足，最小 " ++
              toString (field.validation.min_length.getD 0)]
          else e)))
    else e) = e ++ string_checks reMatch field value := by
  simp only [string_checks]
  split_ifs <;> simp

/-- The numeric block acts on an accumulator by appending its messages. -/
theorem numeric_block_accum (field : SchemaField) (value : PyValue) (e : List String) :
    (if (field.field_type = FieldType.integer ∨ field.field_type = FieldType.float) ∧
        isNumInstance value = true then
      (if field.validation.max_value.isSome = true ∧
          field.validation.max_value.getD 0 < asNumD value then
        (if field.validation.min_value.isSome = true ∧
            asNumD value < field.validation.min_value.getD 0 then
          e ++ ["欄位 " ++ field.name ++ " 值過小，最小 " ++
            toString (field.validation.min_value.getD 0)]
        else e) ++ ["欄位 " ++ field.name ++ " 值過大，最大 " ++
          toString (field.validation.max_value.getD 0)]
      else
        (if field.validation.min_value.isSome = true ∧
            asNumD value < field.validation.min_value.getD 0 then
          e ++ ["欄位 " ++ field.name ++ " 值過小，最小 " ++
            toString (field.validation.min_value.getD 0)]
        else e))
    else e) = e ++ numeric_checks field value := by
  simp only [numeric_checks]
  split_ifs <;> simp

/-- The allowed-values check acts on an accumulator by appending. -/
theorem allowed_block_accum (field : SchemaField) (value : PyValue) (e : List String) :
    (if optListTruthy field.validation.allowed_values = true ∧
        pyMem value (field.validation.allowed_values.getD []) = false then
      e ++ ["欄位 " ++ field.name ++ " 值不在允許範圍內: " ++
        pyRepr (.list (field.validation.allowed_values.getD []))]
    else e) = e ++ allowed_checks field value := by
  simp only [allowed_checks]
  split_ifs <;> simp

/-- Decomposition of the validator: early return on a type mismatch; the
raise on an invalid pattern reached by the string block; and otherwise
the three check blocks contribute independently, in order. -/
theorem validate_decompose (reValid : String → Bool) (reMatch : String → String → Bool)
    (field : SchemaField) (value : PyValue) :
    validate_field_value reValid reMatch field value =
      if pyIsInstance value (get_python_type field.field_type) = false then
        some (type_mismatch_msgs field value)
      else if pattern_raises reValid field value = true then
        Option.none
      else
        some (string_checks reMatch field value ++ numeric_checks field value ++
          allowed_checks field value) := by
  by_cases h : pyIsInstance value (get_python_type field.field_type) = false
  · simp [validate_field_value, type_mismatch_msgs, h]
  · by_cases hp : pattern_raises reValid field value = true
    · simp [validate_field_value, h, hp]
    · simp only [validate_field_value]
      rw [if_neg h, if_neg h, if_neg hp, if_neg hp]
      rw [string_block_accum, numeric_block_accum, allowed_block_accum]
      simp

/-- Counterexample to C9 as stated: the validator can raise.  Python
rejects the regex pattern "(" — `re.compile("(")` raises `re.error`
(missing closing parenthesis) — and `validation.pattern` is never
validated, so for a string field carrying that pattern and a well-typed
string value, the `re.match` call at the pattern check raises instead of
returning an error list; the oracle marks "(" as non-compiling
accordingly.  So "returns an error list and never raises" fails. -/
theorem c9_invalid_pattern_counterexample :
    pyIsInstance (PyValue.str "x") (get_python_type FieldType.string) = true ∧
    validate_field_value (fun p => decide (p ≠ "(")) (fun _ _ => true)
      { name := "n", field_type := FieldType.string,
        validation := { pattern := some "(" }, added_in_version := ⟨1, 0, 0⟩ }
      (PyValue.str "x") = Option.none :=
  ⟨rfl, rfl⟩

/-- Claim C9 (amended): on a runtime type mismatch the validator returns
exactly the one type-mismatch message and no other check runs; when the
string block reaches the pattern check with a pattern that does not
compile, the call raises `re.error` instead of returning (the exception
the counterexample forces to the claimed "never raises"); in every other
case it returns a list accumulating, in order, the messages of the string
length/pattern checks, the numeric min/max checks and the allowed-values
membership check. -/
theorem c9_validator_structure (reValid : String → Bool)
    (reMatch : String → String → Bool) (field : SchemaField) (value : PyValue) :
    (pyIsInstance value (get_python_type field.field_type) = false →
      validate_field_value reValid reMatch field value =
        some (type_mismatch_msgs field value) ∧
      (type_mismatch_msgs field value).length = 1) ∧
    (pyIsInstance value (get_python_type field.field_type) = true →
      pattern_raises reValid field value = true →
      validate_field_value reValid reMatch field value = Option.none) ∧
    (pyIsInstance value (get_python_type field.field_type) = true →
      pattern_raises reValid field value = false →
      validate_field_value reValid reMatch field value =
        some (string_checks reMatch field value ++ numeric_checks field value ++
          allowed_checks field value)) := by
  refine ⟨fun h => ?_, fun h hp => ?_, fun h hp => ?_⟩
  · rw [validate_decompose, if_pos h]
    exact ⟨rfl, rfl⟩
  · rw [validate_decompose, if_neg (by simp [h]), if_pos hp]
  · rw [validate_decompose, if_neg (by simp [h]), if_neg (by simp [hp])]

/-- Witness for the amended C9 at concrete inputs: an integer field
rejects a string value with exactly the type-mismatch message; a string
field with the non-compiling pattern "(" raises; and a string field
without a pattern returns the three blocks in order. -/
theorem c9_validator_structure_witness :
    (validate_field_value (fun _ => true) (fun _ _ => true)
        { name := "n", field_type := FieldType.integer, added_in_version := ⟨1, 0, 0⟩ }
        (PyValue.str "x") =
      some (type_mismatch_msgs
        { name := "n", field_type := FieldType.integer, added_in_version := ⟨1, 0, 0⟩ }
        (PyValue.str "x")) ∧
     (type_mismatch_msgs
        { name := "n", field_type := FieldType.integer, added_in_version := ⟨1, 0, 0⟩ }
        (PyValue.str "x")).length = 1) ∧
    validate_field_value (fun p => decide (p ≠ "(")) (fun _ _ => true)
        { name := "m", field_type := FieldType.string,
          validation := { pattern := some "(" }, added_in_version := ⟨1, 0, 0⟩ }
        (PyValue.str "y") = Option.none ∧
    validate_field_value (fun _ => true) (fun _ _ => true)
        { name := "n", field_type := FieldType.string,
          validation := { max_length := some 1 }, added_in_version := ⟨1, 0, 0⟩ }
        (PyValue.str "xx") =
      some (string_checks (fun _ _ => true)
        { name := "n", field_type := FieldType.string,
          validation := { max_length := some 1 }, added_in_version := ⟨1, 0, 0⟩ }
        (PyValue.str "xx") ++
      numeric_checks
        { name := "n", field_type := FieldType.string,
          validation := { max_length := some 1 }, added_in_version := ⟨1, 0, 0⟩ }
        (PyValue.str "xx") ++
      allowed_checks
        { name := "n", field_type := FieldType.string,
          validation := { max_length := some 1 }, added_in_version := ⟨1, 0, 0⟩ }
        (PyValue.str "xx")) :=
  ⟨(c9_validator_structure (fun _ => true) (fun _ _ => true)
      { name := "n", field_type := FieldType.integer, added_in_version := ⟨1, 0, 0⟩ }
      (PyValue.str "x")).1 rfl,
   (c9_validator_structure (fun p => decide (p ≠ "(")) (fun _ _ => true)
      { name := "m", field_type := FieldType.string,
        validation := { pattern := some "(" }, added_in_version := ⟨1, 0, 0⟩ }
      (PyValue.str "y")).2.1 rfl rfl,
   (c9_validator_structure (fun _ => true) (fun _ _ => true)
      { name := "n", field_type := FieldType.string,
        validation := { max_length := some 1 }, added_in_version := ⟨1, 0, 0⟩ }
      (PyValue.str "xx")).2.2 rfl rfl⟩

/-- Claim C10 (implicit): for a field whose declared type is `integer`,
`_get_python_type` yields Python `int` and `isinstance(True, int)` holds,
so a boolean value passes the type check without a mismatch error and
proceeds to the numeric range and allowed-values checks (the string block
contributes nothing). -/
theorem c10_bool_passes_integer_check (reValid : String → Bool)
    (reMatch : String → String → Bool)
    (field : SchemaField) (b : Bool) (h : field.field_type = FieldType.integer) :
    pyIsInstance (PyValue.bool b) (get_python_type field.field_type) = true ∧
    validate_field_value reValid reMatch field (PyValue.bool b) =
      some (numeric_checks field (PyValue.bool b) ++
        allowed_checks field (PyValue.bool b)) := by
  constructor
  · rw [h]; rfl
  · rw [validate_decompose, if_neg (by rw [h]; simp [pyIsInstance, get_python_type, isInst]),
      if_neg (by simp [pattern_raises, h])]
    have hs : string_checks reMatch field (PyValue.bool b) = [] := by
      simp [string_checks, h, isStrV]
    rw [hs, List.nil_append]

/-- Witness for C10: an integer field with `min_value = 2` lets the value
`True` through the type check and reports only the range violation. -/
theorem c10_bool_passes_integer_check_witness :
    pyIsInstance (PyValue.bool true)
      (get_python_type
        (SchemaField.field_type
          { name := "n", field_type := FieldType.integer,
            validation := { min_value := some 2 },
            added_in_version := ⟨1, 0, 0⟩ })) = true ∧
    validate_field_value (fun _ => true) (fun _ _ => true)
        { name := "n", field_type := FieldType.integer,
          validation := { min_value := some 2 }, added_in_version := ⟨1, 0, 0⟩ }
        (PyValue.bool true) =
      some (numeric_checks
        { name := "n", field_type := FieldType.integer,
          validation := { min_value := some 2 }, added_in_version := ⟨1, 0, 0⟩ }
        (PyValue.bool true) ++
      allowed_checks
        { name := "n", field_type := FieldType.integer,
          validation := { min_value := some 2 }, added_in_version := ⟨1, 0, 0⟩ }
        (PyValue.bool true)) :=
  c10_bool_passes_integer_check (fun _ => true) (fun _ _ => true)
    { name := "n", field_type := FieldType.integer,
      validation := { min_value := some 2 }, added_in_version := ⟨1, 0, 0⟩ }
    true rfl

/-! Basic lemmas about the dict model. -/

theorem dictGet_insert_self [DecidableEq κ] (d : List (κ × α)) (k : κ) (v : α) :
    dictGet (dictInsert d k v) k = some v := by
  induction d with
  | nil => simp [dictInsert, dictGet]
  | cons p rest ih =>
    obtain ⟨k2, v2⟩ := p
    by_cases h : k2 = k
    · simp [dictInsert, dictGet, h]
    · simp [dictInsert, dictGet, h, ih]

theorem dictGet_insert_ne [DecidableEq κ] (d : List (κ × α)) (k k2 : κ) (v : α)
    (h : k2 ≠ k) : dictGet (dictInsert d k v) k2 = dictGet d k2 := by
  have h2 : k ≠ k2 := fun he => h he.symm
  induction d with
  | nil => simp [dictInsert, dictGet, h2]
  | cons p rest ih =>
    obtain ⟨k3, v3⟩ := p
    by_cases h3 : k3 = k
    · subst h3
      simp [dictInsert, dictGet, h2]
    · simp [dictInsert, dictGet, h3, ih]

theorem dictMem_of_get_some [DecidableEq κ] (d : List (κ × α)) (k : κ) (v : α)
    (h : dictGet d k = some v) : dictMem d k = true := by
  simp [dictMem, h]

theorem dictMem_insert_self [DecidableEq κ] (d : List (κ × α)) (k : κ) (v : α) :
    dictMem (dictInsert d k v) k = true := by
  simp [dictMem, dictGet_insert_self]

/-! Shape lemmas for the schema-manager operations. -/

theorem targetVersion_minor_eq (st : SchemaState) (tv : Option Version) :
    targetVersion st tv "minor" =
      some (tv.getD ⟨(get_current_schema st).version.major,
        (get_current_schema st).version.minor + 1, 0⟩) := by
  cases tv <;> rfl

theorem targetVersion_patch_eq (st : SchemaState) (tv : Option Version) :
    targetVersion st tv "patch" =
      some (tv.getD ⟨(get_current_schema st).version.major,
        (get_current_schema st).version.minor,
        (get_current_schema st).version.patch + 1⟩) := by
  cases tv <;> rfl

theorem ensureVersion_migrations (st : SchemaState) (t : Version) (d : String)
    (now : Nat) : (ensureVersion st t d now).migrations = st.migrations := by
  unfold ensureVersion
  split_ifs <;> rfl

theorem ensureVersion_get_preserve (st : SchemaState) (t : Version) (d : String)
    (now : Nat) (v : Version) (sv : SchemaVersion) (h : dictGet st.schemas v = some sv) :
    dictGet (ensureVersion st t d now).schemas v = some sv := by
  unfold ensureVersion
  split_ifs with hm
  · exact h
  · have hne : v ≠ t := by
      intro he
      subst he
      rw [dictMem_of_get_some st.schemas v sv h] at hm
      exact hm rfl
    rw [dictGet_insert_ne st.schemas t v _ hne]
    exact h

theorem ensureVersion_of_mem (st : SchemaState) (t : Version) (d : String)
    (now : Nat) (h : dictMem st.schemas t = true) : ensureVersion st t d now = st := by
  unfold ensureVersion
  rw [if_pos h]

/-- Claim C7: for every core field name, `remove_field` returns `false`
for any `target_version` argument, leaves the whole manager state (hence
the fields of every stored version) untouched, and in particular the field
count of the current schema is unchanged. -/
theorem c7_remove_core_field_rejected (st : SchemaState) (n : String)
    (tv : Option Version) (now : Nat)
    (h : n ∈ ["content_id", "title", "content_type", "created_at", "updated_at"]) :
    (remove_field st n tv now).1 = false ∧
    (remove_field st n tv now).2 = st ∧
    (get_current_schema (remove_field st n tv now).2).fields.length =
      (get_current_schema st).fields.length := by
  have hmem : dictMem core_fields n = true := by fin_cases h <;> rfl
  unfold remove_field
  rw [if_pos hmem]
  exact ⟨rfl, rfl, rfl⟩

/-- Witness for C7: removing `title` from a fresh manager fails and the
state is untouched. -/
theorem c7_remove_core_field_rejected_witness :
    "title" ∈ ["content_id", "title", "content_type", "created_at", "updated_at"] ∧
    ((remove_field initSchemaState "title" Option.none 0).1 = false ∧
     (remove_field initSchemaState "title" Option.none 0).2 = initSchemaState ∧
     (get_current_schema (remove_field initSchemaState "title" Option.none 0).2).fields.length =
       (get_current_schema initSchemaState).fields.length) :=
  ⟨by decide,
   c7_remove_core_field_rejected initSchemaState "title" Option.none 0 (by decide)⟩

/-- Counterexample to C3 as stated: on a fresh manager, adding a field
named `title` (already present) returns `false`, yet a brand-new schema
version 1.1.0 has been registered and has become the current version, so
the set of registered versions and `get_current_schema` both change. -/
theorem c3_counterexample :
    (add_field initSchemaState
      { name := "title", field_type := FieldType.string, added_in_version := ⟨1, 0, 0⟩ }
      Option.none 0).1 = false ∧
    dictMem initSchemaState.schemas ⟨1, 1, 0⟩ = false ∧
    dictMem (add_field initSchemaState
      { name := "title", field_type := FieldType.string, added_in_version := ⟨1, 0, 0⟩ }
      Option.none 0).2.schemas ⟨1, 1, 0⟩ = true ∧
    (get_current_schema initSchemaState).version = ⟨1, 0, 0⟩ ∧
    (get_current_schema (add_field initSchemaState
      { name := "title", field_type := FieldType.string, added_in_version := ⟨1, 0, 0⟩ }
      Option.none 0).2).version = ⟨1, 1, 0⟩ :=
  ⟨rfl, rfl, rfl, rfl, rfl⟩

/-- Claim C3 (amended): an `add_field` call that returns `false` because
the field name already exists appends nothing to the migration log and
changes no field of any previously registered version; moreover, when the
target version already existed the state is completely unchanged.  What
the failing call may still do — forced by the counterexample — is register
one new schema version (a copy of the current fields) when the target
version did not exist yet, which can change `get_current_schema`. -/
theorem c3_duplicate_add_no_field_mutation (st : SchemaState) (f : SchemaField)
    (tv : Option Version) (now : Nat) (st2 : SchemaState)
    (h : add_field st f tv now = (false, st2)) :
    st2.migrations = st.migrations ∧
    (∀ v sv, dictGet st.schemas v = some sv → dictGet st2.schemas v = some sv) ∧
    (∀ tgt, targetVersion st tv "minor" = some tgt → dictMem st.schemas tgt = true →
      st2 = st) := by
  unfold add_field at h
  split at h
  · injection h with h1 h2
    subst h2
    exact ⟨rfl, fun v sv hsv => hsv, fun tgt htgt hmem => rfl⟩
  · next target htv =>
    simp only [] at h
    split at h
    · next hget =>
      injection h with h1 h2
      subst h2
      refine ⟨ensureVersion_migrations st target _ now,
        fun v sv hsv => ensureVersion_get_preserve st target _ now v sv hsv,
        fun tgt htgt hmem => ?_⟩
      rw [htv] at htgt
      injection htgt with htgt2
      rw [← htgt2] at hmem
      exact ensureVersion_of_mem st target _ now hmem
    · split at h
      · injection h with h1 h2
        subst h2
        refine ⟨ensureVersion_migrations st target _ now,
          fun v sv hsv => ensureVersion_get_preserve st target _ now v sv hsv,
          fun tgt htgt hmem => ?_⟩
        rw [htv] at htgt
        injection htgt with htgt2
        rw [← htgt2] at hmem
        exact ensureVersion_of_mem st target _ now hmem
      · exfalso
        split at h <;> exact Bool.noConfusion (congrArg Prod.fst h)

/-- Witness for the amended C3: the duplicate add of `title` targeted at
the existing version 1.0.0 fails and leaves the state fully unchanged. -/
theorem c3_duplicate_add_no_field_mutation_witness :
    (add_field initSchemaState
      { name := "title", field_type := FieldType.string, added_in_version := ⟨1, 0, 0⟩ }
      (some ⟨1, 0, 0⟩) 0).2 = initSchemaState :=
  (c3_duplicate_add_no_field_mutation initSchemaState
    { name := "title", field_type := FieldType.string, added_in_version := ⟨1, 0, 0⟩ }
    (some ⟨1, 0, 0⟩) 0
    (add_field initSchemaState
      { name := "title", field_type := FieldType.string, added_in_version := ⟨1, 0, 0⟩ }
      (some ⟨1, 0, 0⟩) 0).2 rfl).2.2 ⟨1, 0, 0⟩ rfl rfl

theorem mig_append_exists {a b : List SchemaMigration} (m : SchemaMigration)
    (h : b = a) : ∃ l, b ++ [m] = a ++ l := ⟨[m], by rw [h]⟩

theorem mig_append_one {a b : List SchemaMigration} (m : SchemaMigration)
    (h : b = a) : ∃ m2, b ++ [m] = a ++ [m2] := ⟨m, by rw [h]⟩

theorem versionLt_minor_bump (v : Version) :
    versionLt v ⟨v.major, v.minor + 1, 0⟩ = true := by
  simp [versionLt]

theorem versionLt_patch_bump (v : Version) :
    versionLt v ⟨v.major, v.minor, v.patch + 1⟩ = true := by
  simp [versionLt]

/-- Migration-log behaviour of `add_field`: the log only ever grows, and a
successful call appends exactly one record unless the target version is
1.0.0, in which case it appends none. -/
theorem add_field_mig_spec (st : SchemaState) (f : SchemaField) (tv : Option Version)
    (now : Nat) (b : Bool) (st2 : SchemaState) (h : add_field st f tv now = (b, st2)) :
    (∃ l, st2.migrations = st.migrations ++ l) ∧
    (b = true → ∀ tgt, targetVersion st tv "minor" = some tgt →
      (tgt = ⟨1, 0, 0⟩ → st2.migrations = st.migrations) ∧
      (tgt ≠ ⟨1, 0, 0⟩ → ∃ m, st2.migrations = st.migrations ++ [m])) := by
  unfold add_field at h
  split at h
  · injection h with h1 h2
    subst h1; subst h2
    exact ⟨⟨[], by simp⟩, fun hb => Bool.noConfusion hb⟩
  · next target htv =>
    simp only [] at h
    split at h
    · injection h with h1 h2
      subst h1; subst h2
      refine ⟨⟨[], by simp [ensureVersion_migrations]⟩, fun hb => Bool.noConfusion hb⟩
    · split at h
      · injection h with h1 h2
        subst h1; subst h2
        refine ⟨⟨[], by simp [ensureVersion_migrations]⟩, fun hb => Bool.noConfusion hb⟩
      · injection h with h1 h2
        subst h1
        by_cases ht : target = (⟨1, 0, 0⟩ : Version)
        · rw [if_neg (not_not_intro ht)] at h2
          subst h2
          constructor
          · exact ⟨[], by simp [ensureVersion_migrations]⟩
          · intro _ tgt htgt
            rw [htv] at htgt
            injection htgt with he
            subst he
            exact ⟨fun _ => by simp [ensureVersion_migrations],
              fun hne => absurd ht hne⟩
        · rw [if_pos ht] at h2
          subst h2
          constructor
          · exact mig_append_exists _ (ensureVersion_migrations st target _ now)
          · intro _ tgt htgt
            rw [htv] at htgt
            injection htgt with he
            subst he
            exact ⟨fun heq => absurd heq ht,
              fun _ => mig_append_one _ (ensureVersion_migrations st target _ now)⟩

/-- Migration-log behaviour of `remove_field`: the log only grows, and a
successful call appends exactly one record. -/
theorem remove_field_mig_spec (st : SchemaState) (n : String) (tv : Option Version)
    (now : Nat) (b : Bool) (st2 : SchemaState)
    (h : remove_field st n tv now = (b, st2)) :
    (∃ l, st2.migrations = st.migrations ++ l) ∧
    (b = true → ∃ m, st2.migrations = st.migrations ++ [m]) := by
  unfold remove_field at h
  split at h
  · injection h with h1 h2
    subst h1; subst h2
    exact ⟨⟨[], by simp⟩, fun hb => Bool.noConfusion hb⟩
  · split at h
    · injection h with h1 h2
      subst h1; subst h2
      exact ⟨⟨[], by simp⟩, fun hb => Bool.noConfusion hb⟩
    · next target htv =>
      simp only [] at h
      split at h
      · injection h with h1 h2
        subst h1; subst h2
        exact ⟨⟨[], by simp [ensureVersion_migrations]⟩, fun hb => Bool.noConfusion hb⟩
      · split at h
        · injection h with h1 h2
          subst h1; subst h2
          exact ⟨⟨[], by simp [ensureVersion_migrations]⟩, fun hb => Bool.noConfusion hb⟩
        · injection h with h1 h2
          subst h1; subst h2
          exact ⟨mig_append_exists _ (ensureVersion_migrations st target _ now),
            fun _ => mig_append_one _ (ensureVersion_migrations st target _ now)⟩

/-- Migration-log behaviour of `modify_field`: the log only grows, and a
successful call appends exactly one record. -/
theorem modify_field_mig_spec (st : SchemaState) (n : String) (nf : SchemaField)
    (tv : Option Version) (now : Nat) (b : Bool) (st2 : SchemaState)
    (h : modify_field st n nf tv now = (b, st2)) :
    (∃ l, st2.migrations = st.migrations ++ l) ∧
    (b = true → ∃ m, st2.migrations = st.migrations ++ [m]) := by
  unfold modify_field at h
  split at h
  · injection h with h1 h2
    subst h1; subst h2
    exact ⟨⟨[], by simp⟩, fun hb => Bool.noConfusion hb⟩
  · next target htv =>
    simp only [] at h
    split at h
    · injection h with h1 h2
      subst h1; subst h2
      exact ⟨⟨[], by simp [ensureVersion_migrations]⟩, fun hb => Bool.noConfusion hb⟩
    · split at h
      · injection h with h1 h2
        subst h1; subst h2
        exact ⟨⟨[], by simp [ensureVersion_migrations]⟩, fun hb => Bool.noConfusion hb⟩
      · injection h with h1 h2
        subst h1; subst h2
        exact ⟨mig_append_exists _ (ensureVersion_migrations st target _ now),
          fun _ => mig_append_one _ (ensureVersion_migrations st target _ now)⟩

/-- Counterexample to C6 as stated: on a fresh manager, adding a new
optional field with the explicit target version 1.0.0 succeeds yet
appends no migration record at all (the code only records a migration
when the target version differs from "1.0.0"). -/
theorem c6_counterexample :
    (add_field initSchemaState
      { name := "extra_field", field_type := FieldType.string, added_in_version := ⟨1, 0, 0⟩ }
      (some ⟨1, 0, 0⟩) 0).1 = true ∧
    (add_field initSchemaState
      { name := "extra_field", field_type := FieldType.string, added_in_version := ⟨1, 0, 0⟩ }
      (some ⟨1, 0, 0⟩) 0).2.migrations = initSchemaState.migrations ∧
    initSchemaState.migrations = [] :=
  ⟨rfl, rfl, rfl⟩

/-- Claim C6 (amended): every successful `remove_field` or `modify_field`
appends exactly one migration record; a successful `add_field` appends
exactly one record unless its target version is 1.0.0 (reachable only via
an explicit `target_version`), in which case it appends none — the
exception the counterexample forces.  The log is append-only: no call of
the three mutators ever modifies or removes an existing record, the prior
log is always a prefix of the new one. -/
theorem c6_migration_log_append_only (st : SchemaState) (now : Nat) :
    (∀ f tv st2, add_field st f tv now = (true, st2) →
      ∀ tgt, targetVersion st tv "minor" = some tgt →
        (tgt = ⟨1, 0, 0⟩ → st2.migrations = st.migrations) ∧
        (tgt ≠ ⟨1, 0, 0⟩ → ∃ m, st2.migrations = st.migrations ++ [m])) ∧
    (∀ n tv st2, remove_field st n tv now = (true, st2) →
      ∃ m, st2.migrations = st.migrations ++ [m]) ∧
    (∀ n nf tv st2, modify_field st n nf tv now = (true, st2) →
      ∃ m, st2.migrations = st.migrations ++ [m]) ∧
    (∀ f tv, ∃ l, (add_field st f tv now).2.migrations = st.migrations ++ l) ∧
    (∀ n tv, ∃ l, (remove_field st n tv now).2.migrations = st.migrations ++ l) ∧
    (∀ n nf tv, ∃ l, (modify_field st n nf tv now).2.migrations = st.migrations ++ l) :=
  ⟨fun f tv st2 h => (add_field_mig_spec st f tv now true st2 h).2 rfl,
   fun n tv st2 h => (remove_field_mig_spec st n tv now true st2 h).2 rfl,
   fun n nf tv st2 h => (modify_field_mig_spec st n nf tv now true st2 h).2 rfl,
   fun f tv => (add_field_mig_spec st f tv now _ _ rfl).1,
   fun n tv => (remove_field_mig_spec st n tv now _ _ rfl).1,
   fun n nf tv => (modify_field_mig_spec st n nf tv now _ _ rfl).1⟩

/-- Witness for the amended C6: a minor-bump add on a fresh manager
appends exactly one record, and a modify of `title` appends exactly one. -/
theorem c6_migration_log_append_only_witness :
    (∃ m, (add_field initSchemaState
      { name := "extra_field", field_type := FieldType.string, added_in_version := ⟨1, 0, 0⟩ }
      Option.none 0).2.migrations = initSchemaState.migrations ++ [m]) ∧
    (∃ m, (modify_field initSchemaState "title"
      { name := "title", field_type := FieldType.string, added_in_version := ⟨1, 0, 0⟩ }
      Option.none 0).2.migrations = initSchemaState.migrations ++ [m]) :=
  ⟨((c6_migration_log_append_only initSchemaState 0).1
      { name := "extra_field", field_type := FieldType.string, added_in_version := ⟨1, 0, 0⟩ }
      Option.none _ rfl ⟨1, 1, 0⟩ rfl).2 (by decide),
   (c6_migration_log_append_only initSchemaState 0).2.2.1 "title"
      { name := "title", field_type := FieldType.string, added_in_version := ⟨1, 0, 0⟩ }
      Option.none _ rfl⟩

/-- Counterexample to C5 as stated: with an explicitly supplied target
version equal to the current version, `add_field` succeeds and the change
lands in version 1.0.0 itself — not strictly greater than the base
version 1.0.0 it was derived from. -/
theorem c5_counterexample :
    (add_field initSchemaState
      { name := "extra_field", field_type := FieldType.string, added_in_version := ⟨1, 0, 0⟩ }
      (some ⟨1, 0, 0⟩) 0).1 = true ∧
    (get_current_schema initSchemaState).version = ⟨1, 0, 0⟩ ∧
    (∃ sv, dictGet (add_field initSchemaState
      { name := "extra_field", field_type := FieldType.string, added_in_version := ⟨1, 0, 0⟩ }
      (some ⟨1, 0, 0⟩) 0).2.schemas ⟨1, 0, 0⟩ = some sv ∧
      dictMem sv.fields "extra_field" = true) ∧
    versionLt ⟨1, 0, 0⟩ ⟨1, 0, 0⟩ = false :=
  ⟨rfl, rfl, ⟨_, rfl, rfl⟩, rfl⟩

/-- Claim C5 (amended): for every successful `add_field`, `remove_field`
or `modify_field` call with the `target_version` argument omitted, the
change lands in the bumped version derived from the current version at
call time — a minor bump for add/remove, a patch bump for modify — which
is strictly greater in semantic-version order than that base version.
With an explicitly supplied `target_version` the claim fails (see the
counterexample), so it is restricted to the derived-version case. -/
theorem c5_omitted_target_lands_higher (st : SchemaState) (now : Nat) :
    (∀ f st2, add_field st f Option.none now = (true, st2) →
      versionLt (get_current_schema st).version
        ⟨(get_current_schema st).version.major,
         (get_current_schema st).version.minor + 1, 0⟩ = true ∧
      ∃ sv, dictGet st2.schemas
        ⟨(get_current_schema st).version.major,
         (get_current_schema st).version.minor + 1, 0⟩ = some sv ∧
        dictMem sv.fields f.name = true) ∧
    (∀ n st2, remove_field st n Option.none now = (true, st2) →
      versionLt (get_current_schema st).version
        ⟨(get_current_schema st).version.major,
         (get_current_schema st).version.minor + 1, 0⟩ = true ∧
      ∃ sv fd, dictGet st2.schemas
        ⟨(get_current_schema st).version.major,
         (get_current_schema st).version.minor + 1, 0⟩ = some sv ∧
        dictGet sv.fields n = some fd ∧ fd.deprecated = true) ∧
    (∀ n nf st2, modify_field st n nf Option.none now = (true, st2) →
      versionLt (get_current_schema st).version
        ⟨(get_current_schema st).version.major,
         (get_current_schema st).version.minor,
         (get_current_schema st).version.patch + 1⟩ = true ∧
      ∃ sv, dictGet st2.schemas
        ⟨(get_current_schema st).version.major,
         (get_current_schema st).version.minor,
         (get_current_schema st).version.patch + 1⟩ = some sv ∧
        dictMem sv.fields n = true) := by
  refine ⟨fun f st2 h => ?_, fun n st2 h => ?_, fun n nf st2 h => ?_⟩
  · unfold add_field at h
    split at h
    · next htv =>
      rw [targetVersion_minor_eq] at htv
      exact Option.noConfusion htv
    · next target htv =>
      rw [targetVersion_minor_eq] at htv
      injection htv with he
      subst he
      simp only [] at h
      split at h
      · exact Bool.noConfusion (congrArg Prod.fst h)
      · split at h
        · exact Bool.noConfusion (congrArg Prod.fst h)
        · injection h with h1 h2
          subst h2
          refine ⟨versionLt_minor_bump _, ?_⟩
          by_cases ht : (Option.getD Option.none
              ⟨(get_current_schema st).version.major,
               (get_current_schema st).version.minor + 1, 0⟩ : Version) = ⟨1, 0, 0⟩
          · rw [if_neg (not_not_intro ht)]
            exact ⟨_, dictGet_insert_self _ _ _, dictMem_insert_self _ _ _⟩
          · rw [if_pos ht]
            exact ⟨_, dictGet_insert_self _ _ _, dictMem_insert_self _ _ _⟩
  · unfold remove_field at h
    split at h
    · exact Bool.noConfusion (congrArg Prod.fst h)
    · split at h
      · next htv =>
        rw [targetVersion_minor_eq] at htv
        exact Option.noConfusion htv
      · next target htv =>
        rw [targetVersion_minor_eq] at htv
        injection htv with he
        subst he
        simp only [] at h
        split at h
        · exact Bool.noConfusion (congrArg Prod.fst h)
        · split at h
          · exact Bool.noConfusion (congrArg Prod.fst h)
          · injection h with h1 h2
            subst h2
            exact ⟨versionLt_minor_bump _,
              _, _, dictGet_insert_self _ _ _, dictGet_insert_self _ _ _, rfl⟩
  · unfold modify_field at h
    split at h
    · next htv =>
      rw [targetVersion_patch_eq] at htv
      exact Option.noConfusion htv
    · next target htv =>
      rw [targetVersion_patch_eq] at htv
      injection htv with he
      subst he
      simp only [] at h
      split at h
      · exact Bool.noConfusion (congrArg Prod.fst h)
      · split at h
        · exact Bool.noConfusion (congrArg Prod.fst h)
        · injection h with h1 h2
          subst h2
          exact ⟨versionLt_patch_bump _,
            _, dictGet_insert_self _ _ _, dictMem_insert_self _ _ _⟩

/-- Witness for the amended C5: on a fresh manager, an omitted-target add
lands the new field in 1.1.0, strictly above the base version 1.0.0. -/
theorem c5_omitted_target_lands_higher_witness :
    versionLt (get_current_schema initSchemaState).version
      ⟨(get_current_schema initSchemaState).version.major,
       (get_current_schema initSchemaState).version.minor + 1, 0⟩ = true ∧
    ∃ sv, dictGet (add_field initSchemaState
        { name := "extra_field", field_type := FieldType.string, added_in_version := ⟨1, 0, 0⟩ }
        Option.none 0).2.schemas
      ⟨(get_current_schema initSchemaState).version.major,
       (get_current_schema initSchemaState).version.minor + 1, 0⟩ = some sv ∧
      dictMem sv.fields "extra_field" = true :=
  (c5_omitted_target_lands_higher initSchemaState 0).1
    { name := "extra_field", field_type := FieldType.string, added_in_version := ⟨1, 0, 0⟩ }
    _ rfl

/-- Claim C4: `assess_change_risk` returns `critical` whenever the field
name is a core field; otherwise `high` for remove_field and rename_field;
`medium` for add_field with `required=True` and `low` when `required` is
`False` or absent; `medium` for modify_field when the details carry the
`field_type` or `required` key and `low` otherwise; and
`determine_approval_level` is the fixed table low→automatic,
medium→reviewer, high→admin, critical→committee. -/
theorem c4_risk_assessment_table (change_type field_name : String) (details : PyDict) :
    (dictMem core_fields field_name = true →
      assess_change_risk change_type field_name details = ChangeRiskLevel.critical) ∧
    (dictMem core_fields field_name = false →
      (change_type = "remove_field" →
        assess_change_risk change_type field_name details = ChangeRiskLevel.high) ∧
      (change_type = "rename_field" →
        assess_change_risk change_type field_name details = ChangeRiskLevel.high) ∧
      (change_type = "add_field" → dictGet details "required" = some (PyValue.bool true) →
        assess_change_risk change_type field_name details = ChangeRiskLevel.medium) ∧
      (change_type = "add_field" →
        (dictGet details "required" = some (PyValue.bool false) ∨
          dictGet details "required" = Option.none) →
        assess_change_risk change_type field_name details = ChangeRiskLevel.low) ∧
      (change_type = "modify_field" →
        (dictMem details "field_type" = true ∨ dictMem details "required" = true) →
        assess_change_risk change_type field_name details = ChangeRiskLevel.medium) ∧
      (change_type = "modify_field" → dictMem details "field_type" = false →
        dictMem details "required" = false →
        assess_change_risk change_type field_name details = ChangeRiskLevel.low)) ∧
    (determine_approval_level ChangeRiskLevel.low = ApprovalLevel.automatic ∧
     determine_approval_level ChangeRiskLevel.medium = ApprovalLevel.reviewer ∧
     determine_approval_level ChangeRiskLevel.high = ApprovalLevel.admin ∧
     determine_approval_level ChangeRiskLevel.critical = ApprovalLevel.committee) := by
  refine ⟨fun hc => ?_, fun hc => ⟨fun h1 => ?_, fun h1 => ?_, fun h1 h2 => ?_,
    fun h1 h2 => ?_, fun h1 h2 => ?_, fun h1 h2 h3 => ?_⟩, rfl, rfl, rfl, rfl⟩
  · simp [assess_change_risk, hc]
  · subst h1; simp [assess_change_risk, hc]
  · subst h1; simp [assess_change_risk, hc]
  · subst h1; simp [assess_change_risk, hc, dictGetD, h2, pyTruthy]
  · subst h1
    rcases h2 with h2 | h2 <;> simp [assess_change_risk, hc, dictGetD, h2, pyTruthy]
  · subst h1
    rcases h2 with h2 | h2 <;> simp [assess_change_risk, hc, h2]
  · subst h1; simp [assess_change_risk, hc, h2, h3]

/-- Witness for C4 at concrete inputs, one per branch of the table. -/
theorem c4_risk_assessment_table_witness :
    assess_change_risk "modify_field" "title" [] = ChangeRiskLevel.critical ∧
    assess_change_risk "remove_field" "x" [] = ChangeRiskLevel.high ∧
    assess_change_risk "rename_field" "x" [] = ChangeRiskLevel.high ∧
    assess_change_risk "add_field" "x" [("required", PyValue.bool true)] =
      ChangeRiskLevel.medium ∧
    assess_change_risk "add_field" "x" [] = ChangeRiskLevel.low ∧
    assess_change_risk "modify_field" "x" [("required", PyValue.bool false)] =
      ChangeRiskLevel.medium ∧
    assess_change_risk "modify_field" "x" [] = ChangeRiskLevel.low ∧
    determine_approval_level ChangeRiskLevel.low = ApprovalLevel.automatic :=
  ⟨(c4_risk_assessment_table "modify_field" "title" []).1 rfl,
   ((c4_risk_assessment_table "remove_field" "x" []).2.1 rfl).1 rfl,
   ((c4_risk_assessment_table "rename_field" "x" []).2.1 rfl).2.1 rfl,
   ((c4_risk_assessment_table "add_field" "x"
      [("required", PyValue.bool true)]).2.1 rfl).2.2.1 rfl rfl,
   ((c4_risk_assessment_table "add_field" "x" []).2.1 rfl).2.2.2.1 rfl (Or.inr rfl),
   ((c4_risk_assessment_table "modify_field" "x"
      [("required", PyValue.bool false)]).2.1 rfl).2.2.2.2.1 rfl (Or.inr rfl),
   ((c4_risk_assessment_table "modify_field" "x" []).2.1 rfl).2.2.2.2.2 rfl rfl rfl,
   (c4_risk_assessment_table "x" "x" []).2.2.1⟩

/-- Claim C8: a `review_request` call whose id is pending but whose
reviewer lacks permission for the required approval level returns `false`
and leaves the whole state unchanged — the request keeps all its fields
and stays in the pending store, reviewable later by an authorized user. -/
theorem c8_unauthorized_review_noop (st : ApprovalState)
    (rid reviewer action comments : String) (now : Nat) (req : SchemaChangeRequest)
    (hp : dictGet st.pending rid = some req)
    (hperm : check_review_permission reviewer req.required_approval_level = false) :
    review_request st rid reviewer action comments now = (false, st) ∧
    dictGet (review_request st rid reviewer action comments now).2.pending rid =
      some req := by
  have h1 : review_request st rid reviewer action comments now = (false, st) := by
    unfold review_request
    rw [hp]
    simp [hperm]
  exact ⟨h1, by rw [h1]; exact hp⟩

/-- Witness for C8: a reviewer-level request pends, the user `nobody` has
no permission, and the review call is a no-op returning `false`. -/
theorem c8_unauthorized_review_noop_witness :
    dictGet (create_change_request initApprovalState "r1" "add_field" "fld"
        [("required", PyValue.bool true)] "u" "" 0).2.pending "r1" =
      some (mkChangeRequest "r1" "add_field" "fld"
        [("required", PyValue.bool true)] "u" "" 0) ∧
    check_review_permission "nobody"
      (mkChangeRequest "r1" "add_field" "fld"
        [("required", PyValue.bool true)] "u" "" 0).required_approval_level = false ∧
    review_request (create_change_request initApprovalState "r1" "add_field" "fld"
        [("required", PyValue.bool true)] "u" "" 0).2 "r1" "nobody" "approve" "" 1 =
      (false, (create_change_request initApprovalState "r1" "add_field" "fld"
        [("required", PyValue.bool true)] "u" "" 0).2) :=
  ⟨rfl, rfl,
   (c8_unauthorized_review_noop
     (create_change_request initApprovalState "r1" "add_field" "fld"
       [("required", PyValue.bool true)] "u" "" 0).2
     "r1" "nobody" "approve" "" 1
     (mkChangeRequest "r1" "add_field" "fld" [("required", PyValue.bool true)] "u" "" 0)
     rfl rfl).1⟩

/-- Counterexample to C1 as stated: `modify_field` of a non-existent
field has low risk, is auto-approved, and its execution fails; the
rejected request is then stored nowhere — the history stays empty instead
of receiving the finalized request. -/
theorem c1_counterexample :
    assess_change_risk "modify_field" "zzz" [] = ChangeRiskLevel.low ∧
    (create_change_request initApprovalState "r1" "modify_field" "zzz" [] "system" "" 0).2.history = [] ∧
    (create_change_request initApprovalState "r1" "modify_field" "zzz" [] "system" "" 0).2.pending = [] :=
  ⟨rfl, rfl, rfl⟩

/-- Claim C1 (amended): a low-risk (automatic-level) `create_change_request`
never places the request in the pending store; the auto-approved request
carries status `approved`, and when the Evolution-Engine mutation succeeds
it is appended to the approval history.  When the mutation fails, however,
the request is re-stamped `rejected` but dropped: it is appended to
neither collection (the counterexample forces this weakening of the
final clause of the claim). -/
theorem c1_low_risk_auto_approval (st : ApprovalState) (rid ct fn : String)
    (details : PyDict) (pb just : String) (now : Nat)
    (hlow : assess_change_risk ct fn details = ChangeRiskLevel.low) :
    (create_change_request st rid ct fn details pb just now).1 = rid ∧
    (create_change_request st rid ct fn details pb just now).2.pending = st.pending ∧
    (autoApproved (mkChangeRequest rid ct fn details pb just now) now).status = "approved" ∧
    ((execute_change st.schema_st
        (autoApproved (mkChangeRequest rid ct fn details pb just now) now) now).1 = true →
      (create_change_request st rid ct fn details pb just now).2.history =
        st.history ++ [autoApproved (mkChangeRequest rid ct fn details pb just now) now]) ∧
    ((execute_change st.schema_st
        (autoApproved (mkChangeRequest rid ct fn details pb just now) now) now).1 = false →
      (create_change_request st rid ct fn details pb just now).2.history = st.history) := by
  have hauto : (mkChangeRequest rid ct fn details pb just now).required_approval_level =
      ApprovalLevel.automatic := by
    simp [mkChangeRequest, hlow, determine_approval_level]
  have hcre : create_change_request st rid ct fn details pb just now =
      auto_approve_request st (mkChangeRequest rid ct fn details pb just now) now := by
    unfold create_change_request
    rw [if_pos hauto]
  rw [hcre]
  simp only [auto_approve_request]
  by_cases hex : (execute_change st.schema_st
      (autoApproved (mkChangeRequest rid ct fn details pb just now) now) now).1 = true
  · rw [if_pos hex]
    exact ⟨rfl, rfl, rfl, fun _ => rfl, fun hf => by rw [hex] at hf; cases hf⟩
  · rw [if_neg hex]
    exact ⟨rfl, rfl, rfl, fun ht => absurd ht hex, fun _ => rfl⟩

/-- Witness for the amended C1: the failing low-risk request of the
counterexample goes through the theorem — pending is untouched and the
history is unchanged on execution failure. -/
theorem c1_low_risk_auto_approval_witness :
    assess_change_risk "modify_field" "zzz" [] = ChangeRiskLevel.low ∧
    (create_change_request initApprovalState "r1" "modify_field" "zzz" [] "system" "" 0).2.pending =
      initApprovalState.pending ∧
    ((execute_change initApprovalState.schema_st
        (autoApproved (mkChangeRequest "r1" "modify_field" "zzz" [] "system" "" 0) 0) 0).1 = false →
      (create_change_request initApprovalState "r1" "modify_field" "zzz" [] "system" "" 0).2.history =
        initApprovalState.history) :=
  ⟨rfl,
   (c1_low_risk_auto_approval initApprovalState "r1" "modify_field" "zzz" [] "system" "" 0 rfl).2.1,
   (c1_low_risk_auto_approval initApprovalState "r1" "modify_field" "zzz" [] "system" "" 0 rfl).2.2.2.2⟩

/-! Trace semantics for the approval gate (claim C2). -/

/-- An externally invokable mutating operation of the approval manager;
`rid` plays the role of the `uuid4` generated inside
`create_change_request` and `now` the role of `datetime.now()`. -/
inductive ApprovalOp where
  | create (rid change_type field_name : String) (details : PyDict)
      (proposed_by justification : String) (now : Nat)
  | review (rid reviewer action comments : String) (now : Nat)

def applyOp (st : ApprovalState) : ApprovalOp → ApprovalState
  | .create rid ct fn d pb j now => (create_change_request st rid ct fn d pb j now).2
  | .review rid rv a c now => (review_request st rid rv a c now).2

def runOps (st : ApprovalState) : List ApprovalOp → ApprovalState
  | [] => st
  | op :: ops => runOps (applyOp st op) ops

def pendingIds (st : ApprovalState) : List String := st.pending.map Prod.fst

def historyIds (st : ApprovalState) : List String :=
  st.history.map SchemaChangeRequest.request_id

def allIds (st : ApprovalState) : List String := pendingIds st ++ historyIds st

/-- A well-behaved call: request ids are fresh (uuid4 collisions excluded),
review actions are the two documented verbs, and an automatic-level
creation has a succeeding execution. -/
def goodOpB (st : ApprovalState) : ApprovalOp → Bool
  | .create rid ct fn d pb j now =>
    decide (rid ∉ pendingIds st) && decide (rid ∉ historyIds st) &&
      (if determine_approval_level (assess_change_risk ct fn d) = ApprovalLevel.automatic then
        (execute_change st.schema_st
          (autoApproved (mkChangeRequest rid ct fn d pb j now) now) now).1
      else true)
  | .review _ _ action _ _ => decide (action = "approve") || decide (action = "reject")

def goodTraceB (st : ApprovalState) : List ApprovalOp → Bool
  | [] => true
  | op :: ops => goodOpB st op && goodTraceB (applyOp st op) ops

def opCreatedIds : ApprovalOp → List String
  | .create rid _ _ _ _ _ _ => [rid]
  | .review _ _ _ _ _ => []

def createdIds : List ApprovalOp → List String
  | [] => []
  | op :: ops => opCreatedIds op ++ createdIds ops

/-- The history can only be extended, never rewritten. -/
def historyExtends (h1 h2 : List SchemaChangeRequest) : Prop := ∃ l, h2 = h1 ++ l

/-- The internal invariant of the approval manager. -/
def ApprovalInv (st : ApprovalState) : Prop :=
  (∀ a, a ∈ pendingIds st → a ∉ historyIds st) ∧
  (pendingIds st).Nodup ∧
  (∀ p ∈ st.pending, p.2.request_id = p.1) ∧
  (∀ r ∈ st.history, r.status = "approved" ∨ r.status = "rejected")

theorem historyExtends_rfl (h : List SchemaChangeRequest) : historyExtends h h :=
  ⟨[], by simp⟩

theorem historyExtends_trans {a b c : List SchemaChangeRequest}
    (h1 : historyExtends a b) (h2 : historyExtends b c) : historyExtends a c := by
  obtain ⟨l1, rfl⟩ := h1
  obtain ⟨l2, rfl⟩ := h2
  exact ⟨l1 ++ l2, by simp⟩

/-! More association-list lemmas, for the pending store. -/

theorem dictGet_entry_mem [DecidableEq κ] (d : List (κ × α)) (k : κ) (v : α)
    (h : dictGet d k = some v) : (k, v) ∈ d := by
  induction d with
  | nil => simp [dictGet] at h
  | cons p rest ih =>
    obtain ⟨k2, v2⟩ := p
    by_cases he : k2 = k
    · subst he
      simp [dictGet] at h
      simp [h]
    · simp [dictGet, he] at h
      simp [ih h]

theorem mem_keys_of_get_some [DecidableEq κ] (d : List (κ × α)) (k : κ) (v : α)
    (h : dictGet d k = some v) : k ∈ d.map Prod.fst := by
  have := dictGet_entry_mem d k v h
  exact List.mem_map.mpr ⟨(k, v), this, rfl⟩

theorem keys_insert_fresh [DecidableEq κ] (d : List (κ × α)) (k : κ) (v : α)
    (h : k ∉ d.map Prod.fst) :
    (dictInsert d k v).map Prod.fst = d.map Prod.fst ++ [k] := by
  induction d with
  | nil => simp [dictInsert]
  | cons p rest ih =>
    obtain ⟨k2, v2⟩ := p
    have hne : ¬ k2 = k := by
      intro he
      exact h (by simp [he])
    have h2 : k ∉ rest.map Prod.fst := by
      intro hm
      exact h (by simp [hm])
    simp [dictInsert, hne, ih h2]

theorem erase_entry_sub [DecidableEq κ] (d : List (κ × α)) (k : κ) (p : κ × α)
    (h : p ∈ dictErase d k) : p ∈ d := by
  induction d with
  | nil => simp [dictErase] at h
  | cons q rest ih =>
    obtain ⟨k2, v2⟩ := q
    by_cases he : k2 = k
    · simp [dictErase, he] at h
      simp [h]
    · simp [dictErase, he] at h
      rcases h with h | h
      · simp [h]
      · simp [ih h]

theorem keys_erase_sub [DecidableEq κ] (d : List (κ × α)) (k a : κ)
    (h : a ∈ (dictErase d k).map Prod.fst) : a ∈ d.map Prod.fst := by
  obtain ⟨p, hp, rfl⟩ := List.mem_map.mp h
  exact List.mem_map.mpr ⟨p, erase_entry_sub d k p hp, rfl⟩

theorem keys_erase_nodup [DecidableEq κ] (d : List (κ × α)) (k : κ)
    (h : (d.map Prod.fst).Nodup) : ((dictErase d k).map Prod.fst).Nodup := by
  induction d with
  | nil => simp [dictErase]
  | cons q rest ih =>
    obtain ⟨k2, v2⟩ := q
    rw [List.map_cons] at h
    have h1 : k2 ∉ rest.map Prod.fst := (List.nodup_cons.mp h).1
    have h2 : (rest.map Prod.fst).Nodup := (List.nodup_cons.mp h).2
    by_cases he : k2 = k
    · simpa [dictErase, he] using h2
    · have hee : dictErase ((k2, v2) :: rest) k = (k2, v2) :: dictErase rest k := by
        simp [dictErase, he]
      rw [hee, List.map_cons, List.nodup_cons]
      exact ⟨fun hm => h1 (keys_erase_sub rest k k2 hm), ih h2⟩

theorem not_mem_keys_erase [DecidableEq κ] (d : List (κ × α)) (k : κ)
    (h : (d.map Prod.fst).Nodup) : k ∉ (dictErase d k).map Prod.fst := by
  induction d with
  | nil => simp [dictErase]
  | cons q rest ih =>
    obtain ⟨k2, v2⟩ := q
    rw [List.map_cons] at h
    have h1 : k2 ∉ rest.map Prod.fst := (List.nodup_cons.mp h).1
    have h2 : (rest.map Prod.fst).Nodup := (List.nodup_cons.mp h).2
    by_cases he : k2 = k
    · subst he
      simpa [dictErase] using h1
    · have hee : dictErase ((k2, v2) :: rest) k = (k2, v2) :: dictErase rest k := by
        simp [dictErase, he]
      rw [hee, List.map_cons]
      intro hm
      rcases List.mem_cons.mp hm with hm | hm
      · exact he hm.symm
      · exact ih h2 hm

theorem mem_keys_erase_of_ne [DecidableEq κ] (d : List (κ × α)) (k a : κ)
    (ha : a ∈ d.map Prod.fst) (hne : a ≠ k) : a ∈ (dictErase d k).map Prod.fst := by
  induction d with
  | nil => simp at ha
  | cons q rest ih =>
    obtain ⟨k2, v2⟩ := q
    rw [List.map_cons] at ha
    by_cases he : k2 = k
    · subst he
      rcases List.mem_cons.mp ha with ha | ha
      · exact absurd (show a = k2 from ha) hne
      · simpa [dictErase] using ha
    · have hee : dictErase ((k2, v2) :: rest) k = (k2, v2) :: dictErase rest k := by
        simp [dictErase, he]
      rw [hee, List.map_cons]
      rcases List.mem_cons.mp ha with ha | ha
      · exact List.mem_cons.mpr (Or.inl ha)
      · exact List.mem_cons.mpr (Or.inr (ih ha))

/-! History is append-only under every operation, well-behaved or not. -/

theorem create_history_extends (st : ApprovalState) (rid ct fn : String)
    (d : PyDict) (pb j : String) (now : Nat) :
    historyExtends st.history (create_change_request st rid ct fn d pb j now).2.history := by
  simp only [create_change_request, auto_approve_request]
  split_ifs <;> first | exact ⟨_, rfl⟩ | exact ⟨[], by simp⟩

theorem review_history_extends (st : ApprovalState) (rid rv a c : String) (now : Nat) :
    historyExtends st.history (review_request st rid rv a c now).2.history := by
  unfold review_request
  rcases hget : dictGet st.pending rid with _ | req0
  · exact ⟨[], by simp⟩
  · simp only []
    split_ifs <;> first | exact ⟨_, rfl⟩ | exact ⟨[], by simp⟩

theorem applyOp_history_extends (st : ApprovalState) (op : ApprovalOp) :
    historyExtends st.history (applyOp st op).history := by
  cases op with
  | create rid ct fn d pb j now => exact create_history_extends st rid ct fn d pb j now
  | review rid rv a c now => exact review_history_extends st rid rv a c now

theorem runOps_history_extends (ops : List ApprovalOp) (st : ApprovalState) :
    historyExtends st.history (runOps st ops).history := by
  induction ops generalizing st with
  | nil => exact historyExtends_rfl _
  | cons op ops ih =>
    exact historyExtends_trans (applyOp_history_extends st op) (ih (applyOp st op))

theorem runOps_append_eq (l1 l2 : List ApprovalOp) (st : ApprovalState) :
    runOps st (l1 ++ l2) = runOps (runOps st l1) l2 := by
  induction l1 generalizing st with
  | nil => rfl
  | cons op ops ih => simp [runOps, ih]

theorem insert_entry_cases [DecidableEq κ] (d : List (κ × α)) (k : κ) (v : α)
    (p : κ × α) (h : p ∈ dictInsert d k v) : p ∈ d ∨ p = (k, v) := by
  induction d with
  | nil => simpa [dictInsert] using h
  | cons q rest ih =>
    obtain ⟨k2, v2⟩ := q
    by_cases he : k2 = k
    · simp [dictInsert, he] at h
      rcases h with h | h
      · exact Or.inr (by simp [h])
      · exact Or.inl (by simp [h])
    · simp [dictInsert, he] at h
      rcases h with h | h
      · exact Or.inl (by simp [h])
      · rcases ih (by simpa using h) with h2 | h2
        · exact Or.inl (by simp [h2])
        · exact Or.inr h2

theorem review_apply_action_id (sst : SchemaState) (req1 : SchemaChangeRequest)
    (act : String) (now : Nat) :
    (review_apply_action sst req1 act now).1.request_id = req1.request_id := by
  simp only [review_apply_action]
  split_ifs <;> rfl

theorem review_apply_action_status (sst : SchemaState) (req1 : SchemaChangeRequest)
    (act : String) (now : Nat) (h : act = "approve" ∨ act = "reject") :
    (review_apply_action sst req1 act now).1.status = "approved" ∨
    (review_apply_action sst req1 act now).1.status = "rejected" := by
  rcases h with h | h <;> subst h <;> simp only [review_apply_action] <;>
    split_ifs <;> simp_all

/-- One well-behaved operation preserves the invariant, and moves the id
population exactly by the ids it creates. -/
theorem applyOp_inv (st : ApprovalState) (op : ApprovalOp)
    (hInv : ApprovalInv st) (hop : goodOpB st op = true) :
    ApprovalInv (applyOp st op) ∧
    (∀ a, a ∈ allIds (applyOp st op) ↔ (a ∈ opCreatedIds op ∨ a ∈ allIds st)) := by
  obtain ⟨hdisj, hnodup, hpkey, hstat⟩ := hInv
  cases op with
  | create rid ct fn d pb j now =>
    simp only [goodOpB, Bool.and_eq_true, decide_eq_true_eq] at hop
    obtain ⟨⟨hfp, hfh⟩, hexec⟩ := hop
    simp only [applyOp, opCreatedIds]
    by_cases hlvl : determine_approval_level (assess_change_risk ct fn d) =
        ApprovalLevel.automatic
    · rw [if_pos hlvl] at hexec
      have hauto : (mkChangeRequest rid ct fn d pb j now).required_approval_level =
          ApprovalLevel.automatic := hlvl
      have hcre : create_change_request st rid ct fn d pb j now =
          auto_approve_request st (mkChangeRequest rid ct fn d pb j now) now := by
        unfold create_change_request
        rw [if_pos hauto]
      rw [hcre]
      simp only [auto_approve_request]
      rw [if_pos hexec]
      refine ⟨⟨?_, ?_, ?_, ?_⟩, ?_⟩
      · intro a ha
        simp only [pendingIds] at ha
        simp only [historyIds, List.map_append, List.mem_append, List.map_cons,
          List.map_nil, List.mem_singleton]
        rintro (hh | hh)
        · exact hdisj a ha hh
        · rw [show (autoApproved (mkChangeRequest rid ct fn d pb j now) now).request_id
              = rid from rfl] at hh
          subst hh
          exact hfp ha
      · exact hnodup
      · exact hpkey
      · intro r hr
        simp only [List.mem_append, List.mem_singleton] at hr
        rcases hr with hr | hr
        · exact hstat r hr
        · subst hr
          exact Or.inl rfl
      · intro a
        simp only [allIds, pendingIds, historyIds, List.map_append, List.map_cons,
          List.map_nil, List.mem_append, List.mem_singleton, List.mem_cons,
          List.not_mem_nil, or_false]
        rw [show (autoApproved (mkChangeRequest rid ct fn d pb j now) now).request_id
            = rid from rfl]
        tauto
    · rw [if_neg hlvl] at hexec
      have hna : ¬ (mkChangeRequest rid ct fn d pb j now).required_approval_level =
          ApprovalLevel.automatic := hlvl
      have hcre : create_change_request st rid ct fn d pb j now =
          (rid, { st with pending := (dictInsert st.pending rid
            (mkChangeRequest rid ct fn d pb j now)) }) := by
        unfold create_change_request
        rw [if_neg hna]
      rw [hcre]
      have hkeys :
          (dictInsert st.pending rid (mkChangeRequest rid ct fn d pb j now)).map Prod.fst =
          st.pending.map Prod.fst ++ [rid] :=
        keys_insert_fresh _ _ _ hfp
      refine ⟨⟨?_, ?_, ?_, ?_⟩, ?_⟩
      · intro a ha
        simp only [pendingIds, hkeys, List.mem_append, List.mem_singleton] at ha
        rcases ha with ha | ha
        · exact hdisj a ha
        · subst ha
          exact hfh
      · simp only [pendingIds, hkeys, List.nodup_append]
        exact ⟨hnodup, List.nodup_singleton rid, by
          intro a ha hb
          rcases List.mem_singleton.mp hb with rfl
          exact hfp ha⟩
      · intro p hp
        rcases insert_entry_cases _ _ _ p hp with hp | hp
        · exact hpkey p hp
        · subst hp
          rfl
      · exact hstat
      · intro a
        simp only [allIds, pendingIds, historyIds, hkeys, List.mem_append,
          List.mem_singleton, List.mem_cons, List.not_mem_nil, or_false]
        tauto
  | review rid rv act c now =>
    simp only [goodOpB, Bool.or_eq_true, decide_eq_true_eq] at hop
    simp only [applyOp, opCreatedIds]
    unfold review_request
    cases hget : dictGet st.pending rid with
    | none =>
      exact ⟨⟨hdisj, hnodup, hpkey, hstat⟩, fun a => by simp⟩
    | some req0 =>
      simp only []
      by_cases hperm : check_review_permission rv req0.required_approval_level = true
      · rw [if_pos hperm]
        have hrid_mem : rid ∈ pendingIds st := mem_keys_of_get_some _ _ _ hget
        have hreq_id : req0.request_id = rid := hpkey (rid, req0) (dictGet_entry_mem _ _ _ hget)
        have hstep_id : (review_apply_action st.schema_st
            { req0 with
              reviewed_by := some rv, reviewed_at := some now,
              review_comments := c } act now).1.request_id = rid := by
          rw [review_apply_action_id]
          exact hreq_id
        refine ⟨⟨?_, ?_, ?_, ?_⟩, ?_⟩
        · intro a ha
          simp only [pendingIds] at ha
          have ha2 : a ∈ st.pending.map Prod.fst := keys_erase_sub _ _ _ ha
          have hane : a ≠ rid := by
            intro he
            subst he
            exact not_mem_keys_erase st.pending a hnodup ha
          simp only [historyIds, List.map_append, List.mem_append, List.map_cons,
            List.map_nil, List.mem_singleton]
          rintro (hh | hh)
          · exact hdisj a ha2 hh
          · rw [hstep_id] at hh
            exact hane hh
        · exact keys_erase_nodup _ _ hnodup
        · intro p hp
          exact hpkey p (erase_entry_sub _ _ _ hp)
        · intro r hr
          simp only [List.mem_append, List.mem_singleton] at hr
          rcases hr with hr | hr
          · exact hstat r hr
          · subst hr
            exact review_apply_action_status _ _ _ _ hop
        · intro a
          simp only [allIds, pendingIds, historyIds, List.map_append, List.map_cons,
            List.map_nil, List.mem_append, List.mem_singleton, List.mem_cons,
            List.not_mem_nil, or_false, false_or]
          rw [hstep_id]
          constructor
          · rintro (ha | ha | ha)
            · exact Or.inl (keys_erase_sub _ _ _ ha)
            · exact Or.inr ha
            · subst ha
              exact Or.inl hrid_mem
          · rintro (ha | ha)
            · by_cases he : a = rid
              · exact Or.inr (Or.inr he)
              · exact Or.inl (mem_keys_erase_of_ne _ _ _ ha he)
            · exact Or.inr (Or.inl ha)
      · rw [if_neg hperm]
        exact ⟨⟨hdisj, hnodup, hpkey, hstat⟩, fun a => by simp⟩

theorem initApprovalInv : ApprovalInv initApprovalState := by
  refine ⟨?_, ?_, ?_, ?_⟩ <;> simp [pendingIds, historyIds, initApprovalState]

theorem runOps_inv (ops : List ApprovalOp) (st : ApprovalState)
    (hInv : ApprovalInv st) (hg : goodTraceB st ops = true) :
    ApprovalInv (runOps st ops) ∧
    (∀ a, a ∈ allIds (runOps st ops) ↔ (a ∈ createdIds ops ∨ a ∈ allIds st)) := by
  induction ops generalizing st with
  | nil => exact ⟨hInv, fun a => by simp [createdIds, runOps]⟩
  | cons op ops ih =>
    simp only [goodTraceB, Bool.and_eq_true] at hg
    obtain ⟨hop, htrace⟩ := hg
    obtain ⟨hInv2, hids⟩ := applyOp_inv st op hInv hop
    obtain ⟨hInv3, hids3⟩ := ih (applyOp st op) hInv2 htrace
    refine ⟨hInv3, fun a => ?_⟩
    rw [show runOps st (op :: ops) = runOps (applyOp st op) ops from rfl]
    rw [hids3 a, hids a]
    simp only [createdIds, List.mem_append]
    tauto

/-- Counterexample to C2 as stated: reviewing a pending request with the
undocumented action string "foo" succeeds (returns `true`) and moves the
request into the approval history with status still `pending`, violating
the claimed invariant that history entries are `approved` or `rejected`. -/
theorem c2_counterexample :
    (review_request (create_change_request initApprovalState "r1" "add_field" "fld"
        [("required", PyValue.bool true)] "u" "" 0).2 "r1" "admin" "foo" "" 1).1 = true ∧
    ((review_request (create_change_request initApprovalState "r1" "add_field" "fld"
        [("required", PyValue.bool true)] "u" "" 0).2 "r1" "admin" "foo" "" 1).2.history.map
      SchemaChangeRequest.status) = ["pending"] ∧
    (review_request (create_change_request initApprovalState "r1" "add_field" "fld"
        [("required", PyValue.bool true)] "u" "" 0).2 "r1" "admin" "foo" "" 1).2.pending = [] :=
  ⟨rfl, rfl, rfl⟩

/-- Claim C2 (amended): along every sequence of `create_change_request`
and `review_request` calls in which request ids are distinct (uuid4
freshness), every review action is one of the two documented verbs
"approve"/"reject", and the execution of every automatically approved
(low-risk) creation succeeds, the Approval Gate maintains: each created
request id lives in exactly one of the pending store and the history
(never both, never neither once created), every history entry has status
`approved` or `rejected`, and the history is append-only — the history of
any prefix of the trace is a prefix of the final history, so a request
once appended never changes.  The hypotheses on actions and on automatic
executions are forced by the counterexample and by the C1 failure path:
an undocumented action moves a `pending`-status request into history, and
a failed automatic execution drops the request from both collections. -/
theorem c2_pending_history_invariant (ops : List ApprovalOp)
    (hg : goodTraceB initApprovalState ops = true) :
    (∀ a, a ∈ pendingIds (runOps initApprovalState ops) →
      a ∉ historyIds (runOps initApprovalState ops)) ∧
    (∀ a, a ∈ createdIds ops ↔
      (a ∈ pendingIds (runOps initApprovalState ops) ∨
       a ∈ historyIds (runOps initApprovalState ops))) ∧
    (∀ r ∈ (runOps initApprovalState ops).history,
      r.status = "approved" ∨ r.status = "rejected") ∧
    (∀ n, historyExtends (runOps initApprovalState (List.take n ops)).history
      (runOps initApprovalState ops).history) := by
  obtain ⟨⟨hdisj, hnodup, hpkey, hstat⟩, hids⟩ :=
    runOps_inv ops initApprovalState initApprovalInv hg
  refine ⟨hdisj, fun a => ?_, hstat, fun n => ?_⟩
  · have h := hids a
    simp only [allIds, List.mem_append, pendingIds, historyIds, initApprovalState,
      List.map_nil, List.not_mem_nil, or_false] at h
    simp only [pendingIds, historyIds]
    exact h.symm
  · conv_rhs =>
      rw [show ops = List.take n ops ++ List.drop n ops from
        (List.take_append_drop n ops).symm]
    rw [runOps_append_eq]
    exact runOps_history_extends _ _

/-- Witness for the amended C2: a two-step trace — create a reviewer-level
request, then reject it — is well behaved and satisfies the invariant. -/
theorem c2_pending_history_invariant_witness :
    goodTraceB initApprovalState
      [ApprovalOp.create "r1" "add_field" "fld" [("required", PyValue.bool true)] "u" "" 0,
       ApprovalOp.review "r1" "admin" "reject" "no" 1] = true ∧
    ((∀ a, a ∈ pendingIds (runOps initApprovalState
        [ApprovalOp.create "r1" "add_field" "fld" [("required", PyValue.bool true)] "u" "" 0,
         ApprovalOp.review "r1" "admin" "reject" "no" 1]) →
      a ∉ historyIds (runOps initApprovalState
        [ApprovalOp.create "r1" "add_field" "fld" [("required", PyValue.bool true)] "u" "" 0,
         ApprovalOp.review "r1" "admin" "reject" "no" 1])) ∧
    (∀ a, a ∈ createdIds
        [ApprovalOp.create "r1" "add_field" "fld" [("required", PyValue.bool true)] "u" "" 0,
         ApprovalOp.review "r1" "admin" "reject" "no" 1] ↔
      (a ∈ pendingIds (runOps initApprovalState
        [ApprovalOp.create "r1" "add_field" "fld" [("required", PyValue.bool true)] "u" "" 0,
         ApprovalOp.review "r1" "admin" "reject" "no" 1]) ∨
       a ∈ historyIds (runOps initApprovalState
        [ApprovalOp.create "r1" "add_field" "fld" [("required", PyValue.bool true)] "u" "" 0,
         ApprovalOp.review "r1" "admin" "reject" "no" 1]))) ∧
    (∀ r ∈ (runOps initApprovalState
        [ApprovalOp.create "r1" "add_field" "fld" [("required", PyValue.bool true)] "u" "" 0,
         ApprovalOp.review "r1" "admin" "reject" "no" 1]).history,
      r.status = "approved" ∨ r.status = "rejected") ∧
    (∀ n, historyExtends (runOps initApprovalState (List.take n
        [ApprovalOp.create "r1" "add_field" "fld" [("required", PyValue.bool true)] "u" "" 0,
         ApprovalOp.review "r1" "admin" "reject" "no" 1])).history
      (runOps initApprovalState
        [ApprovalOp.create "r1" "add_field" "fld" [("required", PyValue.bool true)] "u" "" 0,
         ApprovalOp.review "r1" "admin" "reject" "no" 1]).history)) :=
  ⟨by decide,
   c2_pending_history_invariant
     [ApprovalOp.create "r1" "add_field" "fld" [("required", PyValue.bool true)] "u" "" 0,
      ApprovalOp.review "r1" "admin" "reject" "no" 1] (by decide)⟩
